import Mathlib

/-!
# Verification of the Latte'd local-first data layer (storage.js)

A shallow embedding of the data model and operations of the repository's
storage module (`storage.js`, given as src/unnamed/part_002; the file also
contains an older duplicate of the same module after its export list — the
first, exported copy is embedded here).

Modelling conventions:
* JavaScript numbers are embedded as `ℚ` (for the pure unit-conversion
  arithmetic) and as `ℤ` (for timestamps and vote counters, which the code
  only ever adds to, subtracts from and compares).  `Math.round` is
  `fun q => ⌊q + 1/2⌋` (round half toward +∞), exactly JS semantics on
  the reals.
* Nullable / possibly-absent fields are `Option`; JS string truthiness
  (`'' `, `null` and `undefined` are falsy) is `strTruthy`.
* `localStorage` documents, the IndexedDB blob store, the Firestore
  collections and the Firebase storage bucket are fields of one state
  record `St`.  `Date.now()` and `generateId()` are oracles: each call
  pops the next value off a stream carried in the state, so a theorem
  quantifying over states covers every possible timing/identifier
  schedule.  `createThumbnail` (an external capability that can fail,
  time out, or succeed) likewise pops an `Option String` oracle stream.
* Remote calls are modelled on their success path; the source catches and
  logs transient remote failures without touching the local stores.
* `saveEntries` additionally increments an instrumentation counter
  `entriesWrites` counting whole-collection writes of the entry list;
  the source performs exactly one `localStorage.setItem` per call.
-/

/-- JS string truthiness for a nullable string: `null`/`undefined`/`''` are falsy. -/
def strTruthy (o : Option String) : Bool :=
  match o with
  | none => false
  | some s => s ≠ ""

/-- JS `x || null` on a nullable string: falsy values collapse to `null`. -/
def orNull (o : Option String) : Option String :=
  if strTruthy o then o else none

/-- JS `x || d` on a string (empty string is falsy). -/
def strOr (s d : String) : String :=
  if s = "" then d else s

/-- JS `x || d` on a nullable string. -/
def optStrOr (o : Option String) (d : String) : String :=
  match o with
  | none => d
  | some s => strOr s d

-- ==========================================
-- Unit Conversion Functions (pure)
-- ==========================================

/-- `Math.round`: round half toward positive infinity. -/
def jround (q : ℚ) : ℤ := ⌊q + 1/2⌋

/-- The literal `29.5735` from `convertVolume`. -/
def mlPerOz : ℚ := 295735 / 10000

/-- The literal `28.3495` from `convertWeight`. -/
def gPerOz : ℚ := 283495 / 10000

/-- `convertTemp(value, from, to)` from storage.js. -/
def convertTemp (value : ℚ) (fromU toU : String) : ℚ :=
  if fromU = toU ∨ value = 0 then value
  else if fromU = "F" ∧ toU = "C" then (jround ((value - 32) * 5 / 9) : ℚ)
  else (jround (value * 9 / 5 + 32) : ℚ)

/-- `convertVolume(value, from, to)` from storage.js. -/
def convertVolume (value : ℚ) (fromU toU : String) : ℚ :=
  if fromU = toU ∨ value = 0 then value
  else if fromU = "ml" ∧ toU = "oz" then (jround (value / mlPerOz * 10) : ℚ) / 10
  else (jround (value * mlPerOz) : ℚ)

/-- `convertWeight(value, from, to)` from storage.js. -/
def convertWeight (value : ℚ) (fromU toU : String) : ℚ :=
  if fromU = toU ∨ value = 0 then value
  else if fromU = "g" ∧ toU = "oz" then (jround (value / gPerOz * 100) : ℚ) / 100
  else (jround (value * gPerOz * 10) : ℚ)

/-- User settings record (`latte_settings`). -/
structure Settings where
  tempUnit : String
  volumeUnit : String
  weightUnit : String
deriving DecidableEq

/-- JS template-literal stringification of a number, for the integer-valued
rationals that the formatting claims evaluate. -/
def numToDisplay (q : ℚ) : String :=
  if q.den = 1 then toString q.num else toString q

/-- `formatTemp(valueF, settings)` from storage.js. -/
def formatTemp (valueF : ℚ) (settings : Settings) : String :=
  if valueF = 0 then "-"
  else if settings.tempUnit = "C" then numToDisplay (convertTemp valueF "F" "C") ++ "°C"
  else numToDisplay valueF ++ "°F"

/-- `formatVolume(valueMl, settings)` from storage.js. -/
def formatVolume (valueMl : ℚ) (settings : Settings) : String :=
  if valueMl = 0 then "-"
  else if settings.volumeUnit = "oz" then numToDisplay (convertVolume valueMl "ml" "oz") ++ " oz"
  else numToDisplay valueMl ++ " ml"

/-- `formatWeight(valueG, settings)` from storage.js. -/
def formatWeight (valueG : ℚ) (settings : Settings) : String :=
  if valueG = 0 then "-"
  else if settings.weightUnit = "oz" then numToDisplay (convertWeight valueG "g" "oz") ++ " oz"
  else numToDisplay valueG ++ " g"

-- Rounding error of `Math.round` is at most one half.

theorem jround_err (q : ℚ) : |(jround q : ℚ) - q| ≤ 1/2 := by
  have h1 : (jround q : ℚ) ≤ q + 1/2 := Int.floor_le (q + 1/2)
  have h2 : q + 1/2 - 1 < (jround q : ℚ) := Int.sub_one_lt_floor (q + 1/2)
  rw [abs_le]
  constructor <;> linarith

/-- C8 auxiliary: `convertTemp 140 'F' 'C' = 60`. -/
theorem convertTemp_140 : convertTemp 140 "F" "C" = ((60 : ℤ) : ℚ) := by
  rw [convertTemp, if_neg (by decide), if_pos (by decide)]
  have ha : ((140 : ℚ) - 32) * 5 / 9 = 60 := by norm_num
  have hb : jround 60 = 60 := by
    unfold jround
    norm_num
  rw [ha, hb]

/-- C8: the unit conversion functions are the identity when the units agree or
the value is falsy (zero), and otherwise apply the fixed formulas with the
stated roundings; in particular a milk temperature of 140°F with a Celsius
display preference formats as "60°C". -/
theorem conversion_functions_spec (v : ℚ) (u w : String) (hv : v ≠ 0) :
    (convertTemp v u u = v ∧ convertVolume v u u = v ∧ convertWeight v u u = v) ∧
    (convertTemp 0 u w = 0 ∧ convertVolume 0 u w = 0 ∧ convertWeight 0 u w = 0) ∧
    convertTemp v "F" "C" = (jround ((v - 32) * 5 / 9) : ℚ) ∧
    convertTemp v "C" "F" = (jround (v * 9 / 5 + 32) : ℚ) ∧
    convertVolume v "ml" "oz" = (jround (v / mlPerOz * 10) : ℚ) / 10 ∧
    convertVolume v "oz" "ml" = (jround (v * mlPerOz) : ℚ) ∧
    convertWeight v "g" "oz" = (jround (v / gPerOz * 100) : ℚ) / 100 ∧
    convertWeight v "oz" "g" = (jround (v * gPerOz * 10) : ℚ) ∧
    formatTemp 140 ⟨"C", "ml", "g"⟩ = "60°C" := by
  refine ⟨⟨?_, ?_, ?_⟩, ⟨?_, ?_, ?_⟩, ?_, ?_, ?_, ?_, ?_, ?_, ?_⟩
  · rw [convertTemp, if_pos (Or.inl rfl)]
  · rw [convertVolume, if_pos (Or.inl rfl)]
  · rw [convertWeight, if_pos (Or.inl rfl)]
  · rw [convertTemp, if_pos (Or.inr rfl)]
  · rw [convertVolume, if_pos (Or.inr rfl)]
  · rw [convertWeight, if_pos (Or.inr rfl)]
  · rw [convertTemp, if_neg (by simp [hv]), if_pos ⟨rfl, rfl⟩]
  · rw [convertTemp, if_neg (by simp [hv]), if_neg (by decide)]
  · rw [convertVolume, if_neg (by simp [hv]), if_pos ⟨rfl, rfl⟩]
  · rw [convertVolume, if_neg (by simp [hv]), if_neg (by decide)]
  · rw [convertWeight, if_neg (by simp [hv]), if_pos ⟨rfl, rfl⟩]
  · rw [convertWeight, if_neg (by simp [hv]), if_neg (by decide)]
  · rw [formatTemp, if_neg (by decide), if_pos rfl, convertTemp_140]
    have hden : (((60 : ℤ) : ℚ)).den = 1 := Rat.den_intCast 60
    have hnum : (((60 : ℤ) : ℚ)).num = 60 := Rat.num_intCast 60
    rw [numToDisplay, if_pos hden, hnum]
    decide

/-- Witness for C8 at the concrete input v = 140 (nonzero). -/
theorem conversion_functions_spec_witness :
    (140 : ℚ) ≠ 0 ∧
    ((convertTemp 140 "x" "x" = 140 ∧ convertVolume 140 "x" "x" = 140 ∧
        convertWeight 140 "x" "x" = 140) ∧
      (convertTemp 0 "x" "y" = 0 ∧ convertVolume 0 "x" "y" = 0 ∧ convertWeight 0 "x" "y" = 0) ∧
      convertTemp 140 "F" "C" = (jround ((140 - 32) * 5 / 9) : ℚ) ∧
      convertTemp 140 "C" "F" = (jround (140 * 9 / 5 + 32) : ℚ) ∧
      convertVolume 140 "ml" "oz" = (jround (140 / mlPerOz * 10) : ℚ) / 10 ∧
      convertVolume 140 "oz" "ml" = (jround (140 * mlPerOz) : ℚ) ∧
      convertWeight 140 "g" "oz" = (jround (140 / gPerOz * 100) : ℚ) / 100 ∧
      convertWeight 140 "oz" "g" = (jround (140 * gPerOz * 10) : ℚ) ∧
      formatTemp 140 ⟨"C", "ml", "g"⟩ = "60°C") :=
  ⟨by decide, conversion_functions_spec 140 "x" "y" (by decide)⟩

/-- C9: for every positive integer number of milliliters, the ml → oz → ml
round trip through convertVolume differs from the original by at most 1 ml. -/
theorem convertVolume_roundtrip_bounded (n : ℤ) (hn : 0 < n) :
    |convertVolume (convertVolume (n : ℚ) "ml" "oz") "oz" "ml" - (n : ℚ)| ≤ 1 := by
  have hx0 : ((n : ℚ)) ≠ 0 := by
    have : (0 : ℚ) < (n : ℚ) := by exact_mod_cast hn
    exact ne_of_gt this
  have hinner : convertVolume (n : ℚ) "ml" "oz" = (jround ((n : ℚ) / mlPerOz * 10) : ℚ) / 10 := by
    rw [convertVolume, if_neg (by simp [hx0]), if_pos ⟨rfl, rfl⟩]
  set a : ℤ := jround ((n : ℚ) / mlPerOz * 10) with hadef
  have ha : |(a : ℚ) - (n : ℚ) / mlPerOz * 10| ≤ 1/2 := jround_err _
  have hml : (0 : ℚ) < mlPerOz := by rw [mlPerOz]; norm_num
  by_cases h0 : a = 0
  · -- the rounded ounce value is 0; the outer call hits the falsy-identity branch
    have houter : convertVolume ((a : ℚ) / 10) "oz" "ml" = (a : ℚ) / 10 := by
      rw [convertVolume, if_pos (Or.inr (by rw [h0]; norm_num))]
    rw [hinner, houter, h0]
    -- from |0 - 10n/mlPerOz| ≤ 1/2 we get n ≤ mlPerOz/20 < 2, so n = 1
    rw [h0] at ha
    have hb : (n : ℚ) / mlPerOz * 10 ≤ 1/2 := by
      have := abs_le.mp ha
      linarith [this.1]
    have hn2 : (n : ℚ) ≤ mlPerOz / 20 := by
      have h1 : (n : ℚ) / mlPerOz * 10 = (n : ℚ) * (10 / mlPerOz) := by ring
      rw [h1] at hb
      have h2 : (0 : ℚ) < 10 / mlPerOz := by positivity
      calc (n : ℚ) = (n : ℚ) * (10 / mlPerOz) * (mlPerOz / 10 / 10 * 10) := by
            field_simp
            ring
        _ ≤ 1/2 * (mlPerOz / 10 / 10 * 10) := by
            have h3 : (0 : ℚ) ≤ mlPerOz / 10 / 10 * 10 := by positivity
            nlinarith
        _ = mlPerOz / 20 := by ring
    have hn1 : n ≤ 1 := by
      by_contra hcon
      push_neg at hcon
      have : (2 : ℚ) ≤ (n : ℚ) := by exact_mod_cast hcon
      rw [mlPerOz] at hn2
      linarith
    have hn1' : n = 1 := le_antisymm hn1 hn
    rw [hn1']
    norm_num
  · -- nonzero ounce value: the outer call applies the oz → ml formula
    have hne : ((a : ℚ) / 10) ≠ 0 := by
      have : (a : ℚ) ≠ 0 := Int.cast_ne_zero.mpr h0
      simp [this]
    have houter : convertVolume ((a : ℚ) / 10) "oz" "ml" =
        (jround ((a : ℚ) / 10 * mlPerOz) : ℚ) := by
      rw [convertVolume, if_neg (by simp [hne]), if_neg (by decide)]
    rw [hinner, houter]
    set m : ℤ := jround ((a : ℚ) / 10 * mlPerOz) with hmdef
    have hm : |(m : ℚ) - (a : ℚ) / 10 * mlPerOz| ≤ 1/2 := jround_err _
    have hstep : |(a : ℚ) / 10 * mlPerOz - (n : ℚ)| ≤ mlPerOz / 20 := by
      have heq : (a : ℚ) / 10 * mlPerOz - (n : ℚ) =
          ((a : ℚ) - (n : ℚ) / mlPerOz * 10) * (mlPerOz / 10) := by
        field_simp
        ring
      rw [heq, abs_mul, abs_of_pos (by positivity : (0 : ℚ) < mlPerOz / 10)]
      calc |(a : ℚ) - (n : ℚ) / mlPerOz * 10| * (mlPerOz / 10)
          ≤ 1/2 * (mlPerOz / 10) := by
            have : (0 : ℚ) ≤ mlPerOz / 10 := by positivity
            nlinarith
        _ = mlPerOz / 20 := by ring
    have htri : |(m : ℚ) - (n : ℚ)| < 2 := by
      have ht := abs_sub_le ((m : ℚ)) ((a : ℚ) / 10 * mlPerOz) ((n : ℚ))
      have hc : mlPerOz / 20 + 1/2 < 2 := by
        rw [mlPerOz]
        norm_num
      linarith
    have hint : |m - n| ≤ 1 := by
      have h2 : ((m - n : ℤ) : ℚ) < 2 ∧ (-2 : ℚ) < ((m - n : ℤ) : ℚ) := by
        have := abs_lt.mp htri
        constructor <;> push_cast <;> linarith [this.1, this.2]
      have h3 : (m - n : ℤ) < 2 := by exact_mod_cast h2.1
      have h4 : (-2 : ℤ) < m - n := by exact_mod_cast h2.2
      rw [abs_le]
      omega
    have := abs_le.mp hint
    rw [abs_le]
    constructor <;> push_cast <;> [exact_mod_cast this.1; exact_mod_cast this.2]

/-- Witness for C9 at n = 100. -/
theorem convertVolume_roundtrip_bounded_witness :
    (0 : ℤ) < 100 ∧
      |convertVolume (convertVolume ((100 : ℤ) : ℚ) "ml" "oz") "oz" "ml" - ((100 : ℤ) : ℚ)| ≤ 1 :=
  ⟨by decide, convertVolume_roundtrip_bounded 100 (by decide)⟩

-- ==========================================
-- Data model (storage.js records)
-- ==========================================

/-- Location object of the profile (`{ city, state, country }`). -/
structure Location where
  city : String
  state : String
  country : String
deriving DecidableEq

/-- User profile record (`latte_profile`). -/
structure Profile where
  id : String
  name : String
  location : Option Location
  picture : Option String
deriving DecidableEq

/-- Optional beans record on an entry. -/
structure Beans where
  brand : String
  name : String
deriving DecidableEq

/-- Brewing parameters of an entry.  Numeric values are kept abstract
rationals; the claims never compute with them. -/
structure Params where
  milkType : String
  milkPitcher : String
  spoutTip : String
  cupType : String
  cupVolumeMl : ℚ
  espressoGrams : ℚ
  milkTempF : ℚ
  aerationTimeSec : ℚ
  integrationTimeSec : ℚ
  artPattern : String
deriving DecidableEq

/-- Denormalized user snapshot stored on an entry. -/
structure UserSnap where
  id : String
  name : String
  location : Option Location
deriving DecidableEq

/-- Media descriptor of an entry: `{ type, thumbnail, cloudUrl }`.
`none` models an absent or null field (createEntry builds the object
without a cloudUrl key; cloud copies carry `thumbnail: null`). -/
structure Media where
  type : String
  thumbnail : Option String
  cloudUrl : Option String
deriving DecidableEq

/-- A comment on an entry. -/
structure Comment where
  id : String
  userId : String
  userName : String
  text : String
  createdAt : ℤ
  updatedAt : Option ℤ
  upvotes : ℤ
  downvotes : ℤ
  parentId : Option String
deriving DecidableEq

/-- One practice-session entry.  `syncedAt`/`userId` are absent until a
cloud copy carrying them overwrites the local record. -/
structure Entry where
  id : String
  createdAt : ℤ
  media : Media
  params : Params
  beans : Option Beans
  rating : ℚ
  notes : String
  comments : Option (List Comment)
  user : Option UserSnap
  isPublic : Bool
  syncedAt : Option ℤ
  userId : Option String
deriving DecidableEq

/-- A notification record (`latte_notifications`). -/
structure Notif where
  id : String
  ntype : String
  message : String
  link : Option String
  read : Bool
  createdAt : ℤ
deriving DecidableEq

/-- Smart defaults saved after entry creation (`latte_smart_defaults`).
Falsy numeric fields are stored as the empty string in JS; that is the
`none` case here. -/
structure SmartDefaults where
  milkType : String
  milkPitcher : String
  spoutTip : String
  cupType : String
  cupVolumeMl : Option ℚ
  espressoGrams : Option ℚ
  milkTempF : Option ℚ
  aerationTimeSec : Option ℚ
  integrationTimeSec : Option ℚ
  beanBrand : String
  beanName : String
  isPublic : Bool
  updatedAt : ℤ
deriving DecidableEq

/-- Form data handed to createEntry/updateEntry.  `isPublic` is optional
because `saveSmartDefaults` distinguishes an absent value from false. -/
structure EntryData where
  mediaType : String
  params : Params
  beans : Option Beans
  rating : ℚ
  notes : String
  isPublic : Option Bool
deriving DecidableEq

/-- A document of the shared `publicFeed` collection, as written by
`addToPublicFeed`. -/
structure PubEntry where
  id : String
  odId : String
  createdAt : ℤ
  updatedAt : ℤ
  mediaType : String
  mediaCloudUrl : Option String
  params : Params
  beans : Option Beans
  rating : ℚ
  notes : String
  userOdId : String
  userName : String
  userId : String
  userLocation : Option Location
  userPicture : Option String
deriving DecidableEq

instance : Inhabited Media := ⟨⟨"", none, none⟩⟩

instance : Inhabited Params := ⟨⟨"", "", "", "", 0, 0, 0, 0, 0, ""⟩⟩

instance : Inhabited Entry :=
  ⟨⟨"", 0, default, default, none, 0, "", none, none, false, none, none⟩⟩

instance : Inhabited Comment := ⟨⟨"", "", "", "", 0, none, 0, 0, none⟩⟩

/-- The whole observable state: the two local stores, the remote service,
the authentication identity and the oracle streams. -/
structure St where
  entries : List Entry
  votes : List (String × ℤ)
  profile : Option Profile
  notifications : Option (List Notif)
  smartDefaults : Option SmartDefaults
  draft : Option String
  blobs : List (String × String)
  remote : List Entry
  remoteBlobs : List (String × String)
  publicFeed : List PubEntry
  currentUser : Option String
  currentUserName : Option String
  syncInProgress : Bool
  lastSyncTime : ℤ
  clock : List ℤ
  ids : List String
  thumbs : List (Option String)
  entriesWrites : Nat
deriving DecidableEq

-- ==========================================
-- Primitive effects
-- ==========================================

/-- Association-list lookup, modelling JS object / keyed-document access. -/
def alookup {α : Type} (m : List (String × α)) (k : String) : Option α :=
  (m.find? (fun p => p.1 = k)).map (fun p => p.2)

/-- Association-list upsert: replace in place if the key exists, else append. -/
def aset {α : Type} (m : List (String × α)) (k : String) (v : α) : List (String × α) :=
  if (m.find? (fun p => p.1 = k)).isSome then
    m.map (fun p => if p.1 = k then (k, v) else p)
  else m ++ [(k, v)]

/-- `Date.now()`: pop the next clock value. -/
def stNow (s : St) : ℤ × St := (s.clock.headD 0, { s with clock := s.clock.tail })

/-- `generateId()`: pop the next fresh identifier. -/
def stGenId (s : St) : String × St := (s.ids.headD "", { s with ids := s.ids.tail })

/-- `createThumbnail(blob, type)`: external capability, resolves to a small
image or to null on failure/timeout; modelled by an oracle stream. -/
def stThumb (s : St) : Option String × St := (s.thumbs.headD none, { s with thumbs := s.thumbs.tail })

/-- `saveEntries(entries)`: one whole-collection localStorage write. -/
def saveEntries (s : St) (es : List Entry) : St :=
  { s with entries := es, entriesWrites := s.entriesWrites + 1 }

/-- `getProfile()`: returns the stored profile, or creates, saves and
returns a default one with a freshly generated id. -/
def getProfile (s : St) : Profile × St :=
  match s.profile with
  | some p => (p, s)
  | none =>
    let (i, s1) := stGenId s
    let p : Profile := ⟨i, "", some ⟨"", "", ""⟩, none⟩
    (p, { s1 with profile := some p })

/-- `getNotifications()`: returns stored notifications, or seeds and saves
the three demo notifications for first-time users. -/
def getNotifications (s : St) : List Notif × St :=
  match s.notifications with
  | some ns => (ns, s)
  | none =>
    let (i1, s1) := stGenId s
    let (t1, s2) := stNow s1
    let (i2, s3) := stGenId s2
    let (t2, s4) := stNow s3
    let (i3, s5) := stGenId s4
    let (t3, s6) := stNow s5
    let demo : List Notif :=
      [⟨i1, "comment",
          "Emma Chen commented on a post: \"Beautiful rosetta! Love the definition.\"",
          some "post.html?id=mock1&mock=true", false, t1 - 3600000⟩,
        ⟨i2, "follow", "Marco Rossi started following you!", none, false, t2 - 7200000⟩,
        ⟨i3, "upvote", "Your comment received 5 upvotes on \"Tulip\" post",
          some "post.html?id=mock2&mock=true", true, t3 - 86400000⟩]
    (demo, { s6 with notifications := some demo })

/-- `createNotification(type, message, link)`: prepend a new notification,
capped at the 50 most recent. -/
def createNotification (s : St) (ntype message : String) (link : Option String) : Notif × St :=
  let (ns, s1) := getNotifications s
  let (i, s2) := stGenId s1
  let (t, s3) := stNow s2
  let n : Notif := ⟨i, ntype, message, link, false, t⟩
  let ns1 := n :: ns
  let ns2 := if ns1.length > 50 then ns1.dropLast else ns1
  (n, { s3 with notifications := some ns2 })

-- ==========================================
-- Comment subsystem
-- ==========================================

/-- `addComment(entryId, commentText, parentId)`: append a comment built
from the caller's profile, then emit owner / parent-author notifications. -/
def addComment (s : St) (entryId commentText : String) (parentId : Option String) :
    Option Comment × St :=
  match s.entries.findIdx? (fun e => e.id = entryId) with
  | none => (none, s)
  | some i =>
    let (p, s1) := getProfile s
    let (cid, s2) := stGenId s1
    let (t, s3) := stNow s2
    let c : Comment := ⟨cid, p.id, strOr p.name "Anonymous", commentText, t, none, 0, 0, parentId⟩
    let e := s.entries.getD i default
    let cs := e.comments.getD [] ++ [c]
    let e1 := { e with comments := some cs }
    let s4 := saveEntries s3 (s.entries.set i e1)
    let s5 :=
      match e1.user with
      | some u =>
        if u.id ≠ p.id then
          (createNotification s4 "comment"
            (strOr p.name "Someone" ++ " commented on your " ++ e1.params.artPattern ++ " post")
            (some ("detail.html?id=" ++ entryId))).2
        else s4
      | none => s4
    let s6 :=
      match parentId with
      | some pid =>
        match cs.find? (fun x => x.id = pid) with
        | some pc =>
          if pc.userId ≠ p.id then
            (createNotification s5 "comment" (strOr p.name "Someone" ++ " replied to your comment")
              (some ("post.html?id=" ++ entryId))).2
          else s5
        | none => s5
      | none => s5
    (some c, s6)

/-- `editComment(entryId, commentId, newText)`: owner-gated in-place text
update; returns null on a missing entry/comment or foreign ownership. -/
def editComment (s : St) (entryId commentId newText : String) : Option Comment × St :=
  match s.entries.findIdx? (fun e => e.id = entryId) with
  | none => (none, s)
  | some i =>
    let (p, s1) := getProfile s
    let e := s.entries.getD i default
    match e.comments with
    | none => (none, s1)
    | some cs =>
      match cs.findIdx? (fun c => c.id = commentId) with
      | none => (none, s1)
      | some j =>
        let c := cs.getD j default
        if c.userId ≠ p.id then (none, s1)
        else
          let (t, s2) := stNow s1
          let c1 := { c with text := newText, updatedAt := some t }
          (some c1, saveEntries s2 (s.entries.set i { e with comments := some (cs.set j c1) }))

/-- `deleteComment(entryId, commentId)`: owner-gated removal of the comment
and of all comments whose parentId equals it (direct children only). -/
def deleteComment (s : St) (entryId commentId : String) : Bool × St :=
  match s.entries.findIdx? (fun e => e.id = entryId) with
  | none => (false, s)
  | some i =>
    let (p, s1) := getProfile s
    let e := s.entries.getD i default
    match (e.comments.getD []).find? (fun c => c.id = commentId) with
    | none => (false, s1)
    | some c =>
      if c.userId ≠ p.id then (false, s1)
      else
        let cs := e.comments.getD []
        let cs1 := cs.filter (fun x => x.id ≠ commentId)
        let cs2 := cs1.filter (fun x => x.parentId ≠ some commentId)
        (true, saveEntries s1 (s.entries.set i { e with comments := some cs2 }))

-- ==========================================
-- Comment voting
-- ==========================================

/-- The votes-map key, `entryId + '_' + commentId`. -/
def voteKey (entryId commentId : String) : String := entryId ++ "_" ++ commentId

/-- `getCommentVote(entryId, commentId)`: the stored choice, defaulting to 0. -/
def getCommentVote (s : St) (entryId commentId : String) : ℤ :=
  (alookup s.votes (voteKey entryId commentId)).getD 0

/-- `voteComment(entryId, commentId, vote)`: toggle-off / flip semantics with
counters clamped at zero; ends with a `getProfile()` read (which seeds a
default profile when none is stored yet). -/
def voteComment (s : St) (entryId commentId : String) (vote : ℤ) : St :=
  match s.entries.findIdx? (fun e => e.id = entryId) with
  | none => s
  | some i =>
    let e := s.entries.getD i default
    match e.comments with
    | none => s
    | some cs =>
      match cs.findIdx? (fun c => c.id = commentId) with
      | none => s
      | some j =>
        let c := cs.getD j default
        let key := voteKey entryId commentId
        let previousVote := (alookup s.votes key).getD 0
        -- (the source's `if (!comment.upvotes) comment.upvotes = 0`
        -- normalisation is the identity on integer counters)
        let c1 :=
          if previousVote = 1 then { c with upvotes := max 0 (c.upvotes - 1) }
          else if previousVote = -1 then { c with downvotes := max 0 (c.downvotes - 1) }
          else c
        let stored : ℤ := if previousVote = vote then 0 else vote
        let c2 :=
          if previousVote = vote then c1
          else if vote = 1 then { c1 with upvotes := c1.upvotes + 1 }
          else if vote = -1 then { c1 with downvotes := c1.downvotes + 1 }
          else c1
        let s1 := saveEntries s (s.entries.set i { e with comments := some (cs.set j c2) })
        let s2 := { s1 with votes := aset s1.votes key stored }
        (getProfile s2).2

-- ==========================================
-- Entry lifecycle
-- ==========================================

/-- `saveSmartDefaults(entryData)` (`latte_smart_defaults` write); JS stores
the empty string for falsy numeric fields, modelled as `none`. -/
def saveSmartDefaults (s : St) (d : EntryData) : St :=
  let numOrEmpty : ℚ → Option ℚ := fun q => if q = 0 then none else some q
  let (t, s1) := stNow s
  { s1 with
    smartDefaults := some
      ⟨strOr d.params.milkType "", strOr d.params.milkPitcher "", strOr d.params.spoutTip "",
        strOr d.params.cupType "", numOrEmpty d.params.cupVolumeMl,
        numOrEmpty d.params.espressoGrams, numOrEmpty d.params.milkTempF,
        numOrEmpty d.params.aerationTimeSec, numOrEmpty d.params.integrationTimeSec,
        (d.beans.map (fun b => b.brand)).getD "", (d.beans.map (fun b => b.name)).getD "",
        d.isPublic.getD true, t⟩ }

/-- `createEntry(entryData, mediaBlob)`: allocate an id, derive a thumbnail
(possibly null), assemble and prepend the entry, persist the blob and the
collection, refresh smart defaults and clear the draft.  The trailing
un-awaited background `syncEntryToCloud` call is a detached task and not
part of the returned (awaited) state. -/
def createEntry (s : St) (d : EntryData) (mediaBlob : String) : Entry × St :=
  let (i, s1) := stGenId s
  let (th, s2) := stThumb s1
  let (p, s3) := getProfile s2
  let (t, s4) := stNow s3
  let e : Entry :=
    { id := i
      createdAt := t
      media := ⟨d.mediaType, th, none⟩
      params := d.params
      beans := d.beans          -- `entryData.beans || null`
      rating := d.rating        -- `entryData.rating || 0` (identity on ℚ)
      notes := d.notes          -- `entryData.notes || ''` (identity on strings)
      comments := some []
      user := some ⟨p.id, strOr p.name "Anonymous", p.location⟩
      isPublic := d.isPublic.getD false
      syncedAt := none
      userId := none }
  let s5 := { s4 with blobs := aset s4.blobs i mediaBlob }
  let s6 := saveEntries s5 (e :: s5.entries)
  let s7 := saveSmartDefaults s6 d
  let s8 := { s7 with draft := none }
  (e, s8)

/-- `updateEntry(id, entryData, mediaBlob)`: THROWS `Error('Entry not
found')` when the id is absent (modelled as `Except.error`); otherwise
replaces media (resetting the recorded cloud URL) and metadata fields. -/
def updateEntry (s : St) (id : String) (d : EntryData) (mediaBlob : Option String) :
    Except String (Entry × St) :=
  match s.entries.findIdx? (fun e => e.id = id) with
  | none => Except.error "Entry not found"
  | some i =>
    let e := s.entries.getD i default
    let (e1, s1) :=
      match mediaBlob with
      | some b =>
        let (th, sa) := stThumb s
        let sb := { sa with blobs := aset sa.blobs id b }
        ({ e with media := ⟨d.mediaType, th, none⟩ }, sb)
      | none => (e, s)
    let e2 :=
      { e1 with
        params := d.params
        beans := d.beans
        rating := d.rating
        notes := d.notes
        isPublic := d.isPublic.getD false }
    let s2 := saveEntries s1 (s1.entries.set i e2)
    -- the background cloud push is detached, as in createEntry
    Except.ok (e2, s2)

-- ==========================================
-- Cloud Sync Functions (Firebase)
-- ==========================================

/-- `getCurrentUserId()`: the authenticated identity's uid, or null. -/
def getCurrentUserId (s : St) : Option String := s.currentUser

/-- The stable download URL Firebase storage yields for the object at
`users/{userId}/entries/{entryId}/media`. -/
def cloudUrlFor (userId entryId : String) : String :=
  "https://firebasestorage/users/" ++ userId ++ "/entries/" ++ entryId ++ "/media"

/-- `uploadMediaToCloud(entryId, blob)`: null without identity or blob,
else store the blob remotely and return its download URL. -/
def uploadMediaToCloud (s : St) (entryId : String) (blob : Option String) :
    Option String × St :=
  match getCurrentUserId s, blob with
  | some userId, some b =>
    (some (cloudUrlFor userId entryId),
      { s with remoteBlobs := aset s.remoteBlobs (userId ++ "/" ++ entryId) b })
  | _, _ => (none, s)

/-- `downloadMediaFromCloud(entryId)`: the remote blob for the current
identity, or null (absence is not an error). -/
def downloadMediaFromCloud (s : St) (entryId : String) : Option String :=
  match getCurrentUserId s with
  | none => none
  | some userId => alookup s.remoteBlobs (userId ++ "/" ++ entryId)

/-- Firestore `doc(e.id).set(e)` on the per-user entries collection:
replace in place, or append a new document. -/
def setRemoteDoc (remote : List Entry) (e : Entry) : List Entry :=
  if remote.any (fun x => x.id = e.id) then
    remote.map (fun x => if x.id = e.id then e else x)
  else remote ++ [e]

/-- `addToPublicFeed(entry, mediaUrl)`: mirror a denormalized public copy
into the shared publicFeed collection, keyed by entry id. -/
def addToPublicFeed (s : St) (e : Entry) (mediaUrl : Option String) : Bool × St :=
  match getCurrentUserId s with
  | none => (false, s)
  | some userId =>
    let (p, s1) := getProfile s
    let displayName := optStrOr s1.currentUserName (strOr p.name "Anonymous")
    let (t, s2) := stNow s1
    let pe : PubEntry :=
      ⟨e.id, userId, e.createdAt, t, e.media.type, mediaUrl, e.params, e.beans, e.rating,
        e.notes, userId, displayName, p.id, p.location, p.picture⟩
    let pf :=
      if s2.publicFeed.any (fun x => x.id = e.id) then
        s2.publicFeed.map (fun x => if x.id = e.id then pe else x)
      else s2.publicFeed ++ [pe]
    (true, { s2 with publicFeed := pf })

/-- `removeFromPublicFeed(entryId)`: best-effort delete of the mirror. -/
def removeFromPublicFeed (s : St) (entryId : String) : St :=
  { s with publicFeed := s.publicFeed.filter (fun x => x.id ≠ entryId) }

/-- `syncEntryToCloud(entry, mediaBlob)`: upload the blob when provided,
write the full entry document (thumbnail stripped, fresh `syncedAt`,
`userId` stamped), record the cloud URL on the local copy, and maintain
the public-feed mirror. -/
def syncEntryToCloud (s : St) (entry : Entry) (mediaBlob : Option String) : Bool × St :=
  match getCurrentUserId s with
  | none => (false, s)
  | some userId =>
    let url0 := orNull entry.media.cloudUrl      -- `entry.media?.cloudUrl || null`
    let (mediaUrl, s1) :=
      match mediaBlob with
      | some _ => uploadMediaToCloud s entry.id mediaBlob
      | none => (url0, s)
    let (t, s2) := stNow s1
    let cloudEntry :=
      { entry with
        media := ⟨entry.media.type, none, mediaUrl⟩
        syncedAt := some t
        userId := some userId }
    let s3 := { s2 with remote := setRemoteDoc s2.remote cloudEntry }
    let s4 :=
      if strTruthy mediaUrl then
        match s3.entries.findIdx? (fun e => e.id = entry.id) with
        | some i =>
          let ex := s3.entries.getD i default
          saveEntries s3 (s3.entries.set i { ex with media := { ex.media with cloudUrl := mediaUrl } })
        | none => s3
      else s3
    let s5 :=
      if entry.isPublic then (addToPublicFeed s4 entry mediaUrl).2
      else removeFromPublicFeed s4 entry.id
    (true, s5)

/-- One iteration of the `syncAllToCloud` loop: fetch the local blob,
decide whether it needs uploading, push the entry. -/
def pushStep (st : St) (e : Entry) : St :=
  let mediaBlob := alookup st.blobs e.id
  let needsMediaUpload := mediaBlob.isSome ∧ ¬ strTruthy e.media.cloudUrl
  (syncEntryToCloud st e (if needsMediaUpload then mediaBlob else none)).2

/-- `syncAllToCloud()`: push every local entry (snapshot taken up front),
uploading a blob only when none is recorded remotely. -/
def syncAllToCloud (s : St) : St :=
  match getCurrentUserId s with
  | none => s
  | some _ =>
    let s1 := s.entries.foldl pushStep s
    let (t, s2) := stNow s1
    { s2 with lastSyncTime := t }

/-- The timestamp-comparison guard of the pull merge:
`cloudEntry.syncedAt > (localEntry.syncedAt || 0)` (false when the cloud
document carries no syncedAt, as a NaN comparison is). -/
def cloudNewer (ce le : Entry) : Bool :=
  match ce.syncedAt with
  | none => false
  | some t => le.syncedAt.getD 0 < t

/-- JS `array.sort((a, b) => b.createdAt - a.createdAt)`: the stable sort
by createdAt descending. -/
def sortByCreatedAtDesc (l : List Entry) : List Entry :=
  List.insertionSort (fun a b => b.createdAt ≤ a.createdAt) l

/-- One iteration of the `syncFromCloud` merge loop over a cloud document.
`localIds` is the id set snapshot taken before the loop. -/
def pullStep (localIds : List String) (acc : List Entry × St) (ce : Entry) :
    List Entry × St :=
  let (localEntries, st) := acc
  if ce.id ∈ localIds then
    match localEntries.find? (fun e => e.id = ce.id) with
    | some localEntry =>
      if cloudNewer ce localEntry then
        let i := (localEntries.findIdx? (fun e => e.id = ce.id)).getD 0
        (localEntries.set i
          { ce with media := { ce.media with thumbnail := localEntry.media.thumbnail } }, st)
      else (localEntries, st)
    | none => (localEntries, st)
  else
    if strTruthy ce.media.cloudUrl then
      match downloadMediaFromCloud st ce.id with
      | some b =>
        let st1 := { st with blobs := aset st.blobs ce.id b }
        let (th, st2) := stThumb st1
        (localEntries ++ [{ ce with media := { ce.media with thumbnail := th } }], st2)
      | none => (localEntries ++ [ce], st)
    else (localEntries ++ [ce], st)

/-- `syncFromCloud()`: guarded pull of the remote collection (listed by
createdAt descending), merged into the local list, then one sorted
whole-collection write. -/
def syncFromCloud (s : St) : St :=
  match getCurrentUserId s with
  | none => s
  | some _ =>
    if s.syncInProgress then s
    else
      let s0 := { s with syncInProgress := true }
      let cloudEntries := sortByCreatedAtDesc s0.remote
      let localIds := s0.entries.map (fun e => e.id)
      let (merged, s1) := cloudEntries.foldl (pullStep localIds) (s0.entries, s0)
      let s2 := saveEntries s1 (sortByCreatedAtDesc merged)
      let (t, s3) := stNow s2
      { s3 with lastSyncTime := t, syncInProgress := false }

/-- `performFullSync()`: download first, then upload. -/
def performFullSync (s : St) : St :=
  match getCurrentUserId s with
  | none => s
  | some _ => syncAllToCloud (syncFromCloud s)

-- ==========================================
-- Basic lemmas about the primitives
-- ==========================================

theorem getProfile_of_some {s : St} {p : Profile} (hp : s.profile = some p) :
    getProfile s = (p, s) := by
  unfold getProfile
  rw [hp]

theorem find?_replace_self {α : Type} (m : List (String × α)) (k : String) (v : α)
    (hm : (m.find? (fun p => p.1 = k)).isSome) :
    (m.map (fun p => if p.1 = k then (k, v) else p)).find? (fun p => p.1 = k) = some (k, v) := by
  induction m with
  | nil => simp at hm
  | cons a t ih =>
    by_cases h : a.1 = k
    · simp [List.find?, h]
    · rw [List.find?_cons_of_neg _ (by simp [h])] at hm
      simp only [List.map_cons, if_neg h]
      rw [List.find?_cons_of_neg _ (by simp [h])]
      exact ih hm

theorem find?_replace_ne {α : Type} (m : List (String × α)) (k k' : String) (v : α)
    (hne : k' ≠ k) :
    (m.map (fun p => if p.1 = k then (k, v) else p)).find? (fun p => p.1 = k') =
      m.find? (fun p => p.1 = k') := by
  induction m with
  | nil => simp
  | cons a t ih =>
    by_cases h : a.1 = k
    · have ha : ¬ a.1 = k' := by rw [h]; exact fun hh => hne hh.symm
      simp only [List.map_cons, if_pos h]
      rw [List.find?_cons_of_neg _ (by simpa using fun hh => hne hh.symm),
        List.find?_cons_of_neg _ (by simp [ha])]
      exact ih
    · simp only [List.map_cons, if_neg h]
      by_cases h' : a.1 = k'
      · rw [List.find?_cons_of_pos _ (by simp [h']), List.find?_cons_of_pos _ (by simp [h'])]
      · rw [List.find?_cons_of_neg _ (by simp [h']), List.find?_cons_of_neg _ (by simp [h'])]
        exact ih

theorem find?_append_one {α : Type} (m : List (String × α)) (k : String) (v : α)
    (hm : m.find? (fun p => p.1 = k) = none) :
    (m ++ [(k, v)]).find? (fun p => p.1 = k) = some (k, v) := by
  induction m with
  | nil => simp [List.find?]
  | cons a t ih =>
    have h : ¬ a.1 = k := by
      intro hh
      rw [List.find?_cons_of_pos _ (by simp [hh])] at hm
      exact absurd hm (by simp)
    rw [List.find?_cons_of_neg _ (by simp [h])] at hm
    rw [List.cons_append, List.find?_cons_of_neg _ (by simp [h])]
    exact ih hm

theorem find?_append_one_ne {α : Type} (m : List (String × α)) (k k' : String) (v : α)
    (hne : k' ≠ k) :
    (m ++ [(k, v)]).find? (fun p => p.1 = k') = m.find? (fun p => p.1 = k') := by
  induction m with
  | nil =>
    have hkk : ¬ (k = k') := fun hh => hne hh.symm
    simp [List.find?, hkk]
  | cons a t ih =>
    by_cases h' : a.1 = k'
    · rw [List.cons_append, List.find?_cons_of_pos _ (by simp [h']),
        List.find?_cons_of_pos _ (by simp [h'])]
    · rw [List.cons_append, List.find?_cons_of_neg _ (by simp [h']),
        List.find?_cons_of_neg _ (by simp [h'])]
      exact ih

theorem alookup_aset_self {α : Type} (m : List (String × α)) (k : String) (v : α) :
    alookup (aset m k v) k = some v := by
  unfold alookup aset
  by_cases hm : (m.find? (fun p => p.1 = k)).isSome
  · rw [if_pos hm, find?_replace_self m k v hm]
    rfl
  · rw [if_neg hm, find?_append_one m k v (by revert hm; cases m.find? (fun p => p.1 = k) <;> simp)]
    rfl

theorem alookup_aset_ne {α : Type} (m : List (String × α)) (k k' : String) (v : α)
    (hne : k' ≠ k) : alookup (aset m k v) k' = alookup m k' := by
  unfold alookup aset
  by_cases hm : (m.find? (fun p => p.1 = k)).isSome
  · rw [if_pos hm, find?_replace_ne m k k' v hne]
  · rw [if_neg hm, find?_append_one_ne m k k' v hne]

-- ==========================================
-- C10: voteComment is a no-op on lookup failure
-- ==========================================

/-- The three early-return situations of voteComment: unknown entry id,
entry without a comments array, or unknown comment id. -/
def voteLookupFails (s : St) (entryId commentId : String) : Prop :=
  match s.entries.findIdx? (fun e => e.id = entryId) with
  | none => True
  | some i =>
    (s.entries.getD i default).comments = none ∨
    ∃ cs, (s.entries.getD i default).comments = some cs ∧
      cs.findIdx? (fun c => c.id = commentId) = none

/-- C10: when the entry id does not resolve, when the resolved entry has no
comment list, or when the comment id is not in it, voteComment returns
without touching any stored state (entries, votes, or anything else). -/
theorem voteComment_noop_on_lookup_failure (s : St) (entryId commentId : String) (vote : ℤ)
    (h : voteLookupFails s entryId commentId) :
    voteComment s entryId commentId vote = s := by
  unfold voteLookupFails at h
  unfold voteComment
  cases hfi : s.entries.findIdx? (fun e => e.id = entryId) with
  | none => rfl
  | some i =>
    rw [hfi] at h
    simp only [List.getD_eq_getElem?_getD] at h
    cases hc : (s.entries[i]?.getD default).comments with
    | none => simp [hc]
    | some cs =>
      rcases h with h | ⟨cs', hcs', hnone⟩
      · exact absurd h (by simp [hc])
      · rw [hc] at hcs'
        cases hcs'
        simp [hc, hnone]

/-- An empty installation state, used as a concrete witness input. -/
def st0 : St :=
  { entries := []
    votes := []
    profile := none
    notifications := none
    smartDefaults := none
    draft := none
    blobs := []
    remote := []
    remoteBlobs := []
    publicFeed := []
    currentUser := none
    currentUserName := none
    syncInProgress := false
    lastSyncTime := 0
    clock := []
    ids := []
    thumbs := []
    entriesWrites := 0 }

/-- Witness for C10: on the empty store every lookup fails and voting is a
no-op. -/
theorem voteComment_noop_on_lookup_failure_witness :
    voteLookupFails st0 "e1" "c1" ∧ voteComment st0 "e1" "c1" 1 = st0 :=
  ⟨by unfold voteLookupFails st0 ; simp,
    voteComment_noop_on_lookup_failure st0 "e1" "c1" 1 (by unfold voteLookupFails st0 ; simp)⟩

-- ==========================================
-- C4: updateEntry on a missing id
-- ==========================================

/-- A minimal form-data record for concrete evaluations. -/
def d0 : EntryData := ⟨"image", default, none, 0, "", none⟩

/-- C4 counterexample: on a store without entry "e1", updateEntry does not
return a null/false sentinel — it throws (`Except.error`), refuting the
claim that NotFound is never thrown for this mutating call. -/
theorem updateEntry_throws_on_missing_id :
    updateEntry st0 "e1" d0 none = Except.error "Entry not found" := rfl

/-- C4 amended: for every id absent from the local collection, updateEntry
fails by THROWING the exception Error('Entry not found') to the caller
(who catches it), rather than returning a null/false sentinel. -/
theorem updateEntry_error_on_missing_id (s : St) (id : String) (d : EntryData)
    (mediaBlob : Option String) (h : ∀ e ∈ s.entries, e.id ≠ id) :
    updateEntry s id d mediaBlob = Except.error "Entry not found" := by
  have hnone : s.entries.findIdx? (fun e => e.id = id) = none :=
    List.findIdx?_eq_none_iff.mpr (fun e he => by simp [h e he])
  unfold updateEntry
  rw [hnone]

/-- Witness for C4's amended theorem on the empty store. -/
theorem updateEntry_error_on_missing_id_witness :
    (∀ e ∈ st0.entries, e.id ≠ "e1") ∧
      updateEntry st0 "e1" d0 none = Except.error "Entry not found" :=
  ⟨by unfold st0 ; simp,
    updateEntry_error_on_missing_id st0 "e1" d0 none (by unfold st0 ; simp)⟩

-- ==========================================
-- C6: foreign-owned comments cannot be edited or deleted
-- ==========================================

/-- C6: with a stored caller profile whose id differs from the comment's
userId, editComment returns null and deleteComment returns false, and the
entire stored state (entries, votes, everything) is left unchanged. -/
theorem comment_ownership_guard (s : St) (p : Profile) (eid cid newText : String)
    (i j : Nat) (e : Entry) (cs : List Comment) (c : Comment)
    (hp : s.profile = some p)
    (hi : s.entries.findIdx? (fun x => x.id = eid) = some i)
    (he : s.entries.getD i default = e)
    (hcs : e.comments = some cs)
    (hj : cs.findIdx? (fun x => x.id = cid) = some j)
    (hc : cs.getD j default = c)
    (hfind : cs.find? (fun x => x.id = cid) = some c)
    (hne : c.userId ≠ p.id) :
    editComment s eid cid newText = (none, s) ∧ deleteComment s eid cid = (false, s) := by
  simp only [List.getD_eq_getElem?_getD] at he hc
  constructor
  · unfold editComment
    rw [hi, getProfile_of_some hp]
    simp [he, hcs, hj, hc, hne]
  · unfold deleteComment
    rw [hi, getProfile_of_some hp]
    simp [he, hcs, hfind, hne]

/-- A profile used in concrete scenarios (the caller). -/
def pMe : Profile := ⟨"u1", "Me", none, none⟩

/-- A comment owned by another user. -/
def cTheirs : Comment := ⟨"c9", "u2", "Them", "theirs", 3, none, 0, 0, none⟩

/-- An entry holding a foreign-owned comment. -/
def eWithTheirs : Entry :=
  { id := "e9"
    createdAt := 1
    media := ⟨"image", none, none⟩
    params := default
    beans := none
    rating := 0
    notes := ""
    comments := some [cTheirs]
    user := some ⟨"u1", "Me", none⟩
    isPublic := false
    syncedAt := none
    userId := none }

/-- State for the ownership witness. -/
def sOwn : St := { st0 with entries := [eWithTheirs], profile := some pMe }

/-- Witness for C6 at a concrete foreign-owned comment. -/
theorem comment_ownership_guard_witness :
    cTheirs.userId ≠ pMe.id ∧
      editComment sOwn "e9" "c9" "x" = (none, sOwn) ∧
      deleteComment sOwn "e9" "c9" = (false, sOwn) :=
  ⟨by decide,
    comment_ownership_guard sOwn pMe "e9" "c9" "x" 0 0 eWithTheirs [cTheirs] cTheirs
      rfl (by decide) rfl rfl (by decide) rfl (by decide) (by decide)⟩

-- ==========================================
-- C7: createEntry always succeeds locally
-- ==========================================

/-- C7: createEntry prepends the new entry to the local collection (newest
first), makes its blob retrievable under the entry's own id, and uses
whatever the thumbnail generator produced — in particular, when
thumbnailing fails or times out (null), the entry is still created, with a
null thumbnail. -/
theorem createEntry_spec (s : St) (d : EntryData) (blob : String) (p : Profile)
    (hp : s.profile = some p) :
    (createEntry s d blob).2.entries = (createEntry s d blob).1 :: s.entries ∧
    alookup (createEntry s d blob).2.blobs (createEntry s d blob).1.id = some blob ∧
    (createEntry s d blob).1.media.thumbnail = s.thumbs.headD none ∧
    (s.thumbs.headD none = none → (createEntry s d blob).1.media.thumbnail = none) := by
  unfold createEntry stGenId stThumb stNow saveEntries saveSmartDefaults
  simp only [getProfile, hp]
  simp [stNow, alookup_aset_self]

/-- Witness for C7 on a store with a profile and a failing thumbnailer. -/
theorem createEntry_spec_witness :
    ({ st0 with profile := some pMe, thumbs := [none] } : St).profile = some pMe ∧
      ((createEntry { st0 with profile := some pMe, thumbs := [none] } d0 "blob").2.entries =
          (createEntry { st0 with profile := some pMe, thumbs := [none] } d0 "blob").1 ::
            ({ st0 with profile := some pMe, thumbs := [none] } : St).entries ∧
        alookup (createEntry { st0 with profile := some pMe, thumbs := [none] } d0 "blob").2.blobs
            (createEntry { st0 with profile := some pMe, thumbs := [none] } d0 "blob").1.id =
          some "blob" ∧
        (createEntry { st0 with profile := some pMe, thumbs := [none] } d0 "blob").1.media.thumbnail =
          ({ st0 with profile := some pMe, thumbs := [none] } : St).thumbs.headD none ∧
        (({ st0 with profile := some pMe, thumbs := [none] } : St).thumbs.headD none = none →
          (createEntry { st0 with profile := some pMe, thumbs := [none] } d0 "blob").1.media.thumbnail =
            none)) :=
  ⟨rfl, createEntry_spec { st0 with profile := some pMe, thumbs := [none] } d0 "blob" pMe rfl⟩

-- ==========================================
-- C1: voteComment toggle / flip semantics
-- ==========================================

/-- A fresh comment (zero counters) owned by the scenario caller. -/
def cFresh : Comment := ⟨"c1", "u1", "Me", "hi", 0, none, 0, 0, none⟩

/-- The scenario entry holding the fresh comment. -/
def eVote : Entry :=
  { id := "e1"
    createdAt := 1
    media := ⟨"image", none, none⟩
    params := default
    beans := none
    rating := 0
    notes := ""
    comments := some [cFresh]
    user := some ⟨"u1", "Me", none⟩
    isPublic := false
    syncedAt := none
    userId := none }

/-- The scenario store: one entry, one fresh comment, no votes. -/
def sVote : St := { st0 with entries := [eVote], profile := some pMe }

/-- The first comment of the first entry, as the scenario observes it. -/
def commentAt0 (s : St) : Comment :=
  ((s.entries.headD default).comments.getD []).headD default

/-- End-to-end scenario C: vote +1 (upvotes 1), vote +1 again (upvotes 0,
vote cleared), vote -1 (upvotes 0, downvotes 1, stored -1). -/
def voteScenarioC : Prop :=
  (commentAt0 (voteComment sVote "e1" "c1" 1)).upvotes = 1 ∧
  getCommentVote (voteComment sVote "e1" "c1" 1) "e1" "c1" = 1 ∧
  (commentAt0 (voteComment (voteComment sVote "e1" "c1" 1) "e1" "c1" 1)).upvotes = 0 ∧
  getCommentVote (voteComment (voteComment sVote "e1" "c1" 1) "e1" "c1" 1) "e1" "c1" = 0 ∧
  (commentAt0 (voteComment (voteComment (voteComment sVote "e1" "c1" 1) "e1" "c1" 1)
      "e1" "c1" (-1))).upvotes = 0 ∧
  (commentAt0 (voteComment (voteComment (voteComment sVote "e1" "c1" 1) "e1" "c1" 1)
      "e1" "c1" (-1))).downvotes = 1 ∧
  getCommentVote (voteComment (voteComment (voteComment sVote "e1" "c1" 1) "e1" "c1" 1)
      "e1" "c1" (-1)) "e1" "c1" = -1

/-- C1: voteComment keeps at most one stored vote per (entry, comment) pair
(only that pair's key changes); voting the stored value again clears the
choice and decrements that counter (clamped at 0); voting the opposite
value flips the stored choice and moves both counters; counters stay
non-negative; and end-to-end scenario C holds. -/
theorem voteComment_semantics (s : St) (p : Profile) (eid cid : String) (vote : ℤ)
    (i j : Nat) (e : Entry) (cs : List Comment) (c : Comment)
    (hp : s.profile = some p)
    (hi : s.entries.findIdx? (fun x => x.id = eid) = some i)
    (he : s.entries.getD i default = e)
    (hcs : e.comments = some cs)
    (hj : cs.findIdx? (fun x => x.id = cid) = some j)
    (hc : cs.getD j default = c)
    (hvote : vote = 1 ∨ vote = -1)
    (hup : 0 ≤ c.upvotes) (hdown : 0 ≤ c.downvotes) :
    (∃ c2 : Comment,
      voteComment s eid cid vote =
        { saveEntries s (s.entries.set i { e with comments := some (cs.set j c2) }) with
            votes := aset s.votes (voteKey eid cid)
              (if getCommentVote s eid cid = vote then 0 else vote) } ∧
      getCommentVote (voteComment s eid cid vote) eid cid =
        (if getCommentVote s eid cid = vote then 0 else vote) ∧
      (∀ k, k ≠ voteKey eid cid →
        alookup (voteComment s eid cid vote).votes k = alookup s.votes k) ∧
      (getCommentVote s eid cid = vote →
        (vote = 1 → c2.upvotes = max 0 (c.upvotes - 1) ∧ c2.downvotes = c.downvotes) ∧
        (vote = -1 → c2.downvotes = max 0 (c.downvotes - 1) ∧ c2.upvotes = c.upvotes)) ∧
      (getCommentVote s eid cid = -vote →
        (vote = 1 → c2.upvotes = c.upvotes + 1 ∧ c2.downvotes = max 0 (c.downvotes - 1)) ∧
        (vote = -1 → c2.downvotes = c.downvotes + 1 ∧ c2.upvotes = max 0 (c.upvotes - 1))) ∧
      (getCommentVote s eid cid = 0 →
        (vote = 1 → c2.upvotes = c.upvotes + 1 ∧ c2.downvotes = c.downvotes) ∧
        (vote = -1 → c2.downvotes = c.downvotes + 1 ∧ c2.upvotes = c.upvotes)) ∧
      0 ≤ c2.upvotes ∧ 0 ≤ c2.downvotes) ∧
    voteScenarioC := by
  constructor
  · set prev : ℤ := (alookup s.votes (voteKey eid cid)).getD 0 with hprev
    have hgcv : getCommentVote s eid cid = prev := rfl
    set c1 : Comment :=
      (if prev = 1 then { c with upvotes := max 0 (c.upvotes - 1) }
        else if prev = -1 then { c with downvotes := max 0 (c.downvotes - 1) }
        else c) with hc1
    set c2 : Comment :=
      (if prev = vote then c1
        else if vote = 1 then { c1 with upvotes := c1.upvotes + 1 }
        else if vote = -1 then { c1 with downvotes := c1.downvotes + 1 }
        else c1) with hc2
    have hrun : voteComment s eid cid vote =
        { saveEntries s (s.entries.set i { e with comments := some (cs.set j c2) }) with
            votes := aset s.votes (voteKey eid cid) (if prev = vote then 0 else vote) } := by
      unfold voteComment
      simp only [hi]
      rw [he]
      simp only [hcs, hj]
      rw [hc]
      simp only [getProfile, saveEntries, hp, ← hprev, ← hc1, ← hc2]
    have hvotes : (voteComment s eid cid vote).votes =
        aset s.votes (voteKey eid cid) (if prev = vote then 0 else vote) := by
      rw [hrun]
    refine ⟨c2, by rw [hgcv]; exact hrun, ?_, ?_, ?_, ?_, ?_, ?_, ?_⟩
    · unfold getCommentVote
      rw [hvotes, alookup_aset_self]
      rfl
    · intro k hk
      rw [hvotes, alookup_aset_ne _ _ _ _ hk]
    · intro hpv
      rw [hgcv] at hpv
      rcases hvote with rfl | rfl
      · constructor
        · intro _
          rw [hc2, if_pos hpv, hc1, hpv]
          simp
        · intro h
          exact absurd h (by decide)
      · constructor
        · intro h
          exact absurd h (by decide)
        · intro _
          rw [hc2, if_pos hpv, hc1, hpv]
          simp
    · intro hpv
      rw [hgcv] at hpv
      rcases hvote with rfl | rfl
      · constructor
        · intro _
          have hne : ¬ prev = 1 := by rw [hpv]; decide
          rw [hc2, if_neg (by rw [hpv]; decide), if_pos rfl, hc1, if_neg hne, if_pos hpv]
          simp
        · intro h
          exact absurd h (by decide)
      · constructor
        · intro h
          exact absurd h (by decide)
        · intro _
          have hp1 : prev = 1 := by rw [hpv]; decide
          rw [hc2, if_neg (by rw [hp1]; decide), if_neg (by decide), if_pos rfl, hc1,
            if_pos hp1]
          simp
    · intro hpv
      rw [hgcv] at hpv
      rcases hvote with rfl | rfl
      · constructor
        · intro _
          rw [hc2, if_neg (by rw [hpv]; decide), if_pos rfl, hc1, if_neg (by rw [hpv]; decide),
            if_neg (by rw [hpv]; decide)]
          simp
        · intro h
          exact absurd h (by decide)
      · constructor
        · intro h
          exact absurd h (by decide)
        · intro _
          rw [hc2, if_neg (by rw [hpv]; decide), if_neg (by decide), if_pos rfl, hc1,
            if_neg (by rw [hpv]; decide), if_neg (by rw [hpv]; decide)]
          simp
    · -- upvotes of the updated comment stay non-negative
      rw [hc2, hc1]
      by_cases h1 : prev = 1 <;> by_cases hm : prev = -1 <;> by_cases hv : prev = vote <;>
        rcases hvote with rfl | rfl <;>
          simp [h1, hm, hv] <;> omega
    · rw [hc2, hc1]
      by_cases h1 : prev = 1 <;> by_cases hm : prev = -1 <;> by_cases hv : prev = vote <;>
        rcases hvote with rfl | rfl <;>
          simp [h1, hm, hv] <;> omega
  · unfold voteScenarioC
    refine ⟨by decide, by decide, by decide, by decide, by decide, by decide, by decide⟩

/-- Witness for C1: the semantics theorem applied to the concrete scenario
store (all hypotheses discharged on concrete values). -/
theorem voteComment_semantics_witness :
    sVote.profile = some pMe ∧ (0 : ℤ) ≤ cFresh.upvotes ∧ voteScenarioC :=
  ⟨rfl, by decide,
    (voteComment_semantics sVote pMe "e1" "c1" 1 0 0 eVote [cFresh] cFresh rfl (by decide)
        rfl rfl (by decide) rfl (Or.inl rfl) (by decide) (by decide)).2⟩

-- ==========================================
-- C5: deleteComment removes the comment and its direct children
-- ==========================================

/-- End-to-end scenario B: add top-level comment c1 to entry e1, reply c2
with parentId = c1, delete c1; e1's comment list then contains neither. -/
def deleteScenarioB : Prop :=
  let sB : St :=
    { st0 with
        entries :=
          [{ id := "e1"
             createdAt := 1
             media := ⟨"image", none, none⟩
             params := default
             beans := none
             rating := 0
             notes := ""
             comments := some []
             user := some ⟨"u1", "Me", none⟩
             isPublic := false
             syncedAt := none
             userId := none }]
        profile := some pMe
        ids := ["c1", "c2"]
        clock := [10, 11] }
  let s1 := (addComment sB "e1" "hello" none).2
  let s2 := (addComment s1 "e1" "reply" (some "c1")).2
  let r := deleteComment s2 "e1" "c1"
  r.1 = true ∧
  (r.2.entries.headD default).comments = some [] ∧
  ((s2.entries.headD default).comments.getD []).map (fun c => c.id) = ["c1", "c2"]

/-- C5: for an owned comment, deleteComment returns true and replaces the
entry's comment list by the double filter of the source (first dropping
the comment itself, then all direct children); the comment and its direct
children are gone, everything else — grandchildren included — survives;
and end-to-end scenario B holds. -/
theorem deleteComment_spec (s : St) (p : Profile) (eid cid : String) (i : Nat)
    (e : Entry) (cs : List Comment) (c : Comment)
    (hp : s.profile = some p)
    (hi : s.entries.findIdx? (fun x => x.id = eid) = some i)
    (he : s.entries.getD i default = e)
    (hcs : e.comments = some cs)
    (hfind : cs.find? (fun x => x.id = cid) = some c)
    (hown : c.userId = p.id) :
    (deleteComment s eid cid =
      (true, saveEntries s (s.entries.set i
        { e with comments := some ((cs.filter (fun x => x.id ≠ cid)).filter
            (fun x => x.parentId ≠ some cid)) }))) ∧
    (∀ g ∈ (cs.filter (fun x => x.id ≠ cid)).filter (fun x => x.parentId ≠ some cid),
        g.id ≠ cid ∧ g.parentId ≠ some cid) ∧
    (∀ g ∈ cs, g.id ≠ cid → g.parentId ≠ some cid →
        g ∈ (cs.filter (fun x => x.id ≠ cid)).filter (fun x => x.parentId ≠ some cid)) ∧
    deleteScenarioB := by
  refine ⟨?_, ?_, ?_, ?_⟩
  · unfold deleteComment
    simp only [hi]
    rw [he, getProfile_of_some hp]
    simp only [hcs, Option.getD_some, hfind, hown]
    simp
  · intro g hg
    simp only [List.mem_filter, decide_eq_true_eq] at hg
    exact ⟨hg.1.2, hg.2⟩
  · intro g hg h1 h2
    simp only [List.mem_filter, decide_eq_true_eq]
    exact ⟨⟨hg, h1⟩, h2⟩
  · unfold deleteScenarioB
    refine ⟨by decide, by decide, by decide⟩

-- ==========================================
-- List machinery for the sync proofs
-- ==========================================

/-- An entry list with no-duplicate ids finds a member by its id. -/
theorem mem_nodup_find? {L : List Entry} (hN : (L.map (fun e => e.id)).Nodup)
    {le : Entry} (hmem : le ∈ L) :
    L.find? (fun e => e.id = le.id) = some le := by
  induction L with
  | nil => cases hmem
  | cons a t ih =>
    rcases List.mem_cons.mp hmem with rfl | hmem'
    · exact List.find?_cons_of_pos _ (by simp)
    · have hna : ¬ a.id = le.id := by
        intro hcontra
        have : le.id ∈ t.map (fun e => e.id) := List.mem_map_of_mem _ hmem'
        rw [← hcontra] at this
        exact (List.nodup_cons.mp (by simpa using hN)).1 this
      rw [List.find?_cons_of_neg _ (by simp [hna])]
      exact ih (List.nodup_cons.mp (by simpa using hN)).2 hmem'

theorem find?_id_none {L : List Entry} {x : String} (h : ∀ e ∈ L, e.id ≠ x) :
    L.find? (fun e => e.id = x) = none :=
  List.find?_eq_none.mpr (by simpa using h)

theorem find?_id_none_of_not_mem {L : List Entry} {x : String}
    (h : x ∉ L.map (fun e => e.id)) :
    L.find? (fun e => e.id = x) = none :=
  find?_id_none (fun e he hcontra => h (hcontra ▸ List.mem_map_of_mem _ he))

/-- The behaviour of `L.set ((L.findIdx? byId).getD 0) new`, the shape both
the pull-merge overwrite and the push-loop local update take. -/
theorem set_found_spec (L : List Entry) (cid : String) (new le : Entry)
    (hfind : L.find? (fun e => e.id = cid) = some le) (hnew : new.id = cid) :
    ((L.set ((L.findIdx? (fun e => e.id = cid)).getD 0) new).map (fun e => e.id) =
        L.map (fun e => e.id)) ∧
    ((L.set ((L.findIdx? (fun e => e.id = cid)).getD 0) new).find? (fun e => e.id = cid) =
        some new) ∧
    (∀ x, x ≠ cid →
      (L.set ((L.findIdx? (fun e => e.id = cid)).getD 0) new).find? (fun e => e.id = x) =
        L.find? (fun e => e.id = x)) ∧
    (∀ (β : Type) (f : Entry → β), f new = f le →
      (L.set ((L.findIdx? (fun e => e.id = cid)).getD 0) new).map f = L.map f) := by
  induction L with
  | nil => cases hfind
  | cons a t ih =>
    by_cases ha : a.id = cid
    · have hle : le = a := by
        rw [List.find?_cons_of_pos _ (by simp [ha])] at hfind
        exact (Option.some.inj hfind).symm
      have hidx : (a :: t).findIdx? (fun e => e.id = cid) = some 0 := by
        rw [List.findIdx?_cons, if_pos (by simp [ha])]
      rw [hidx]
      refine ⟨by simp [hnew, ha], ?_, ?_, ?_⟩
      · exact List.find?_cons_of_pos _ (by simp [hnew])
      · intro x hx
        rw [show (a :: t).set ((some 0).getD 0) new = new :: t from rfl]
        rw [List.find?_cons_of_neg _ (by simp [hnew]; exact fun hh => hx hh.symm),
          List.find?_cons_of_neg _ (by simp [ha]; exact fun hh => hx hh.symm)]
      · intro β f hf
        rw [show (a :: t).set ((some 0).getD 0) new = new :: t from rfl]
        simp [hf, hle]
    · rw [List.find?_cons_of_neg _ (by simp [ha])] at hfind
      have hidx0 : t.findIdx? (fun e => e.id = cid) ≠ none := by
        intro hn
        have hall := List.findIdx?_eq_none_iff.mp hn
        rw [List.find?_eq_none.mpr (by simpa using hall)] at hfind
        cases hfind
      cases hidxt : t.findIdx? (fun e => e.id = cid) with
      | none => exact absurd hidxt hidx0
      | some n =>
        have hidx : (a :: t).findIdx? (fun e => e.id = cid) = some (n + 1) := by
          rw [List.findIdx?_cons, if_neg (by simp [ha]), List.findIdx?_succ, hidxt]
          rfl
        rw [hidx]
        have hset : (a :: t).set (n + 1) new = a :: t.set n new := List.set_cons_succ a t n new
        obtain ⟨ih1, ih2, ih3, ih4⟩ := ih hfind
        rw [hidxt] at ih1 ih2 ih3 ih4
        simp only [Option.getD_some] at ih1 ih2 ih3 ih4
        refine ⟨?_, ?_, ?_, ?_⟩
        · simp only [Option.getD_some, hset, List.map_cons, ih1]
        · simp only [Option.getD_some, hset]
          rw [List.find?_cons_of_neg _ (by simp [ha]), ih2]
        · intro x hx
          simp only [Option.getD_some, hset]
          by_cases hax : a.id = x
          · rw [List.find?_cons_of_pos _ (by simp [hax]), List.find?_cons_of_pos _ (by simp [hax])]
          · rw [List.find?_cons_of_neg _ (by simp [hax]), List.find?_cons_of_neg _ (by simp [hax]),
              ih3 x hx]
        · intro β f hf
          simp only [Option.getD_some, hset, List.map_cons, ih4 β f hf]

/-- Setting the found element back to itself is the identity. -/
theorem set_found_self (L : List Entry) (cid : String) (le : Entry)
    (hfind : L.find? (fun e => e.id = cid) = some le) :
    L.set ((L.findIdx? (fun e => e.id = cid)).getD 0) le = L := by
  induction L with
  | nil => cases hfind
  | cons a t ih =>
    by_cases ha : a.id = cid
    · have hle : le = a := by
        rw [List.find?_cons_of_pos _ (by simp [ha])] at hfind
        exact (Option.some.inj hfind).symm
      have hidx : (a :: t).findIdx? (fun e => e.id = cid) = some 0 := by
        rw [List.findIdx?_cons, if_pos (by simp [ha])]
      rw [hidx]
      simp [hle]
    · rw [List.find?_cons_of_neg _ (by simp [ha])] at hfind
      have hidx0 : t.findIdx? (fun e => e.id = cid) ≠ none := by
        intro hn
        have hall := List.findIdx?_eq_none_iff.mp hn
        rw [List.find?_eq_none.mpr (by simpa using hall)] at hfind
        cases hfind
      cases hidxt : t.findIdx? (fun e => e.id = cid) with
      | none => exact absurd hidxt hidx0
      | some n =>
        have hidx : (a :: t).findIdx? (fun e => e.id = cid) = some (n + 1) := by
          rw [List.findIdx?_cons, if_neg (by simp [ha]), List.findIdx?_succ, hidxt]
          rfl
        rw [hidx]
        have hrec := ih hfind
        rw [hidxt] at hrec
        simp only [Option.getD_some] at hrec
        simpa [List.set_cons_succ] using hrec

/-- With no-duplicate ids, setting at the found index is the same as a
map that replaces the (unique) id match. -/
theorem set_found_eq_map_replace (L : List Entry) (cid : String) (new le : Entry)
    (hfind : L.find? (fun e => e.id = cid) = some le)
    (hN : (L.map (fun e => e.id)).Nodup) :
    L.set ((L.findIdx? (fun e => e.id = cid)).getD 0) new =
      L.map (fun x => if x.id = cid then new else x) := by
  induction L with
  | nil => cases hfind
  | cons a t ih =>
    rw [List.map_cons] at hN
    obtain ⟨hnotin, hNt⟩ := List.nodup_cons.mp hN
    by_cases ha : a.id = cid
    · have hidx : (a :: t).findIdx? (fun e => e.id = cid) = some 0 := by
        rw [List.findIdx?_cons, if_pos (by simp [ha])]
      rw [hidx]
      have htid : ∀ x ∈ t, ¬ x.id = cid := by
        intro x hx hcontra
        apply hnotin
        have hax : a.id = x.id := by rw [ha, hcontra]
        rw [hax]
        exact List.mem_map_of_mem _ hx
      have : t.map (fun x => if x.id = cid then new else x) = t := by
        rw [show t = t.map id by simp]
        rw [List.map_map]
        refine List.map_congr_left ?_
        intro x hx
        simp [htid x (by simpa using hx)]
      simp [ha, this]
    · rw [List.find?_cons_of_neg _ (by simp [ha])] at hfind
      have hidx0 : t.findIdx? (fun e => e.id = cid) ≠ none := by
        intro hn
        have hall := List.findIdx?_eq_none_iff.mp hn
        rw [List.find?_eq_none.mpr (by simpa using hall)] at hfind
        cases hfind
      cases hidxt : t.findIdx? (fun e => e.id = cid) with
      | none => exact absurd hidxt hidx0
      | some n =>
        have hidx : (a :: t).findIdx? (fun e => e.id = cid) = some (n + 1) := by
          rw [List.findIdx?_cons, if_neg (by simp [ha]), List.findIdx?_succ, hidxt]
          rfl
        rw [hidx]
        have hrec := ih hfind hNt
        rw [hidxt] at hrec
        simp only [Option.getD_some] at hrec
        simp [List.set_cons_succ, ha, hrec]

-- ==========================================
-- Pull-merge (syncFromCloud) fold lemmas
-- ==========================================

theorem pullStep_snd_of_mem (lids : List String) (L : List Entry) (st : St) (ce : Entry)
    (h : ce.id ∈ lids) : (pullStep lids (L, st) ce).2 = st := by
  unfold pullStep
  dsimp only
  rw [if_pos h]
  cases hf : L.find? (fun e => e.id = ce.id) with
  | none => rfl
  | some le =>
    by_cases hcn : cloudNewer ce le <;> simp [hcn]

theorem pullStep_fst_of_mem (lids : List String) (L : List Entry) (st : St) (ce : Entry)
    (h : ce.id ∈ lids) :
    (pullStep lids (L, st) ce).1 =
      (match L.find? (fun e => e.id = ce.id) with
      | some le =>
        if cloudNewer ce le then
          L.set ((L.findIdx? (fun e => e.id = ce.id)).getD 0)
            { ce with media := { ce.media with thumbnail := le.media.thumbnail } }
        else L
      | none => L) := by
  unfold pullStep
  dsimp only
  rw [if_pos h]
  cases hf : L.find? (fun e => e.id = ce.id) with
  | none => rfl
  | some le =>
    by_cases hcn : cloudNewer ce le <;> simp [hcn]

theorem pullStep_snd_frame (lids : List String) (L : List Entry) (st : St) (ce : Entry) :
    (pullStep lids (L, st) ce).2.entriesWrites = st.entriesWrites ∧
    (pullStep lids (L, st) ce).2.currentUser = st.currentUser ∧
    (pullStep lids (L, st) ce).2.remote = st.remote ∧
    (pullStep lids (L, st) ce).2.remoteBlobs = st.remoteBlobs := by
  unfold pullStep
  dsimp only
  by_cases hm : ce.id ∈ lids
  · rw [if_pos hm]
    cases hf : L.find? (fun e => e.id = ce.id) with
    | none => exact ⟨rfl, rfl, rfl, rfl⟩
    | some le => by_cases hcn : cloudNewer ce le <;> simp [hcn]
  · rw [if_neg hm]
    by_cases ht : strTruthy ce.media.cloudUrl
    · rw [if_pos ht]
      cases hd : downloadMediaFromCloud st ce.id with
      | none => exact ⟨rfl, rfl, rfl, rfl⟩
      | some b => simp [stThumb]
    · rw [if_neg ht]
      exact ⟨rfl, rfl, rfl, rfl⟩

theorem pullStep_find?_ne (lids : List String) (L : List Entry) (st : St) (ce : Entry)
    (x : String) (hx : x ≠ ce.id) :
    (pullStep lids (L, st) ce).1.find? (fun e => e.id = x) = L.find? (fun e => e.id = x) := by
  unfold pullStep
  dsimp only
  by_cases hm : ce.id ∈ lids
  · rw [if_pos hm]
    cases hf : L.find? (fun e => e.id = ce.id) with
    | none => rfl
    | some le =>
      by_cases hcn : cloudNewer ce le
      · simp only [hcn, if_true]
        exact (set_found_spec L ce.id
          { ce with media := { ce.media with thumbnail := le.media.thumbnail } } le hf rfl).2.2.1 x hx
      · simp [hcn]
  · rw [if_neg hm]
    have happ : ∀ (a : Entry), a.id = ce.id →
        (L ++ [a]).find? (fun e => e.id = x) = L.find? (fun e => e.id = x) := by
      intro a haid
      have hax : ¬ a.id = x := by
        rw [haid]
        exact fun hh => hx hh.symm
      rw [List.find?_append]
      rw [List.find?_cons_of_neg _ (by simp [hax])]
      simp
    by_cases ht : strTruthy ce.media.cloudUrl
    · rw [if_pos ht]
      cases hd : downloadMediaFromCloud st ce.id with
      | none => exact happ ce rfl
      | some b => exact happ _ rfl
    · rw [if_neg ht]
      exact happ ce rfl

theorem pullStep_map_id (lids : List String) (L : List Entry) (st : St) (ce : Entry) :
    (pullStep lids (L, st) ce).1.map (fun e => e.id) =
      L.map (fun e => e.id) ++ (if ce.id ∈ lids then [] else [ce.id]) := by
  unfold pullStep
  dsimp only
  by_cases hm : ce.id ∈ lids
  · rw [if_pos hm, if_pos hm]
    cases hf : L.find? (fun e => e.id = ce.id) with
    | none => simp
    | some le =>
      by_cases hcn : cloudNewer ce le
      · simp only [hcn, if_true]
        rw [(set_found_spec L ce.id
          { ce with media := { ce.media with thumbnail := le.media.thumbnail } } le hf rfl).1]
        simp
      · simp [hcn]
  · rw [if_neg hm, if_neg hm]
    by_cases ht : strTruthy ce.media.cloudUrl
    · rw [if_pos ht]
      cases hd : downloadMediaFromCloud st ce.id with
      | none => simp
      | some b => simp [stThumb]
    · rw [if_neg ht]
      simp

theorem pullStep_find?_self_insert (lids : List String) (L : List Entry) (st : St) (ce : Entry)
    (hm : ce.id ∉ lids) (hfind : L.find? (fun e => e.id = ce.id) = none) :
    ∃ e', (pullStep lids (L, st) ce).1.find? (fun e => e.id = ce.id) = some e' ∧
      e'.id = ce.id := by
  unfold pullStep
  dsimp only
  rw [if_neg hm]
  have happ : ∀ (a : Entry), a.id = ce.id →
      ∃ e', (L ++ [a]).find? (fun e => e.id = ce.id) = some e' ∧ e'.id = ce.id := by
    intro a haid
    refine ⟨a, ?_, haid⟩
    rw [List.find?_append, hfind]
    rw [List.find?_cons_of_pos _ (by simp [haid])]
    rfl
  by_cases ht : strTruthy ce.media.cloudUrl
  · rw [if_pos ht]
    cases hd : downloadMediaFromCloud st ce.id with
    | none => exact happ ce rfl
    | some b => exact happ _ rfl
  · rw [if_neg ht]
    exact happ ce rfl

theorem pullFold_snd_frame (lids : List String) (cs : List Entry) :
    ∀ (L : List Entry) (st : St),
      (cs.foldl (pullStep lids) (L, st)).2.entriesWrites = st.entriesWrites ∧
      (cs.foldl (pullStep lids) (L, st)).2.currentUser = st.currentUser ∧
      (cs.foldl (pullStep lids) (L, st)).2.remote = st.remote ∧
      (cs.foldl (pullStep lids) (L, st)).2.remoteBlobs = st.remoteBlobs := by
  induction cs with
  | nil => intro L st; exact ⟨rfl, rfl, rfl, rfl⟩
  | cons ce cs ih =>
    intro L st
    rw [List.foldl_cons]
    obtain ⟨h1, h2, h3, h4⟩ := pullStep_snd_frame lids L st ce
    obtain ⟨g1, g2, g3, g4⟩ := ih (pullStep lids (L, st) ce).1 (pullStep lids (L, st) ce).2
    exact ⟨g1.trans h1, g2.trans h2, g3.trans h3, g4.trans h4⟩

theorem pullFold_snd_of_all_mem (lids : List String) (cs : List Entry)
    (h : ∀ ce ∈ cs, ce.id ∈ lids) :
    ∀ (L : List Entry) (st : St), (cs.foldl (pullStep lids) (L, st)).2 = st := by
  induction cs with
  | nil => intro L st; rfl
  | cons ce cs ih =>
    intro L st
    rw [List.foldl_cons]
    have hst := pullStep_snd_of_mem lids L st ce (h ce (by simp))
    have hrec := ih (fun c hc => h c (by simp [hc]))
      (pullStep lids (L, st) ce).1 (pullStep lids (L, st) ce).2
    exact hrec.trans hst

theorem pullFold_find?_frame (lids : List String) (cs : List Entry) (x : String)
    (hx : ∀ ce ∈ cs, x ≠ ce.id) :
    ∀ (L : List Entry) (st : St),
      (cs.foldl (pullStep lids) (L, st)).1.find? (fun e => e.id = x) =
        L.find? (fun e => e.id = x) := by
  induction cs with
  | nil => intro L st; rfl
  | cons ce cs ih =>
    intro L st
    rw [List.foldl_cons]
    have hstep := pullStep_find?_ne lids L st ce x (hx ce (by simp))
    have hrec := ih (fun c hc => hx c (by simp [hc]))
      (pullStep lids (L, st) ce).1 (pullStep lids (L, st) ce).2
    exact hrec.trans hstep

theorem pullFold_map_id (lids : List String) (cs : List Entry) :
    ∀ (L : List Entry) (st : St),
      (cs.foldl (pullStep lids) (L, st)).1.map (fun e => e.id) =
        L.map (fun e => e.id) ++
          ((cs.filter (fun ce => ¬ ce.id ∈ lids)).map (fun e => e.id)) := by
  induction cs with
  | nil => intro L st; simp
  | cons ce cs ih =>
    intro L st
    rw [List.foldl_cons]
    have hrec := ih (pullStep lids (L, st) ce).1 (pullStep lids (L, st) ce).2
    rw [hrec, pullStep_map_id]
    by_cases hm : ce.id ∈ lids <;> simp [hm, List.filter_cons]

theorem pullFold_find?_char (lids : List String) (cs : List Entry)
    (hN : (cs.map (fun e => e.id)).Nodup) :
    ∀ (L : List Entry) (st : St) (ce : Entry), ce ∈ cs →
      (∀ le, L.find? (fun e => e.id = ce.id) = some le → ce.id ∈ lids →
        (cs.foldl (pullStep lids) (L, st)).1.find? (fun e => e.id = ce.id) =
          some (if cloudNewer ce le then
              { ce with media := { ce.media with thumbnail := le.media.thumbnail } }
            else le)) ∧
      (L.find? (fun e => e.id = ce.id) = none → ce.id ∉ lids →
        ∃ e', (cs.foldl (pullStep lids) (L, st)).1.find? (fun e => e.id = ce.id) = some e' ∧
          e'.id = ce.id) := by
  induction cs with
  | nil => intro L st ce hce; cases hce
  | cons c0 cs ih =>
    intro L st ce hce
    rw [List.map_cons] at hN
    obtain ⟨hnotin, hNt⟩ := List.nodup_cons.mp hN
    rcases List.mem_cons.mp hce with rfl | hmem
    · have hframe : ∀ (L' : List Entry) (st' : St),
          (cs.foldl (pullStep lids) (L', st')).1.find? (fun e => e.id = ce.id) =
            L'.find? (fun e => e.id = ce.id) := by
        intro L' st'
        exact pullFold_find?_frame lids cs ce.id
          (fun c hc heq => hnotin (heq ▸ List.mem_map_of_mem _ hc)) L' st'
      constructor
      · intro le hfind hmem'
        rw [List.foldl_cons, hframe _ _, pullStep_fst_of_mem lids L st ce hmem', hfind]
        by_cases hcn : cloudNewer ce le
        · simp only [hcn, if_true]
          exact (set_found_spec L ce.id
            { ce with media := { ce.media with thumbnail := le.media.thumbnail } } le
            hfind rfl).2.1
        · simp [hcn, hfind]
      · intro hfind hmem'
        rw [List.foldl_cons, hframe _ _]
        exact pullStep_find?_self_insert lids L st ce hmem' hfind
    · have hne : ce.id ≠ c0.id := fun heq => hnotin (heq ▸ List.mem_map_of_mem _ hmem)
      have hstep := pullStep_find?_ne lids L st c0 ce.id hne
      obtain ⟨ih1, ih2⟩ := ih hNt (pullStep lids (L, st) c0).1 (pullStep lids (L, st) c0).2 ce hmem
      rw [List.foldl_cons]
      constructor
      · intro le hfind hm'
        exact ih1 le (hstep.trans hfind) hm'
      · intro hfind hm'
        exact ih2 (hstep.trans hfind) hm'

/-- When every cloud document already exists locally and each overwrite is
invisible to a projection f, the whole pull merge is invisible to f. -/
theorem pullFold_map_f (lids : List String) (cs : List Entry) (β : Type) (f : Entry → β)
    (hN : (cs.map (fun e => e.id)).Nodup) :
    ∀ (L : List Entry) (st : St),
      (∀ ce ∈ cs, ce.id ∈ lids) →
      (∀ ce ∈ cs, ∀ le, L.find? (fun e => e.id = ce.id) = some le →
        f { ce with media := { ce.media with thumbnail := le.media.thumbnail } } = f le) →
      (cs.foldl (pullStep lids) (L, st)).1.map f = L.map f := by
  induction cs with
  | nil => intro L st _ _; rfl
  | cons c0 cs ih =>
    intro L st hall hrel
    rw [List.map_cons] at hN
    obtain ⟨hnotin, hNt⟩ := List.nodup_cons.mp hN
    rw [List.foldl_cons]
    have hstep : (pullStep lids (L, st) c0).1.map f = L.map f := by
      rw [pullStep_fst_of_mem lids L st c0 (hall c0 (by simp))]
      cases hf : L.find? (fun e => e.id = c0.id) with
      | none => rfl
      | some le =>
        by_cases hcn : cloudNewer c0 le
        · simp only [hcn, if_true]
          exact (set_found_spec L c0.id
            { c0 with media := { c0.media with thumbnail := le.media.thumbnail } } le
            hf rfl).2.2.2 β f (hrel c0 (by simp) le hf)
        · simp [hcn]
    have hrec := ih hNt (pullStep lids (L, st) c0).1 (pullStep lids (L, st) c0).2
      (fun c hc => hall c (by simp [hc]))
      (fun c hc le hfind => by
        have hne : c.id ≠ c0.id := fun heq => hnotin (heq ▸ List.mem_map_of_mem _ hc)
        have := pullStep_find?_ne lids L st c0 c.id hne
        exact hrel c (by simp [hc]) le (this ▸ hfind))
    exact hrec.trans hstep

theorem find?_perm_of_nodup {L L' : List Entry} (hperm : L.Perm L')
    (hN : (L'.map (fun e => e.id)).Nodup) {x : String} {v : Entry}
    (hfind : L.find? (fun e => e.id = x) = some v) :
    L'.find? (fun e => e.id = x) = some v := by
  have hv : v ∈ L := List.mem_of_find?_eq_some hfind
  have hvid : v.id = x := by simpa using List.find?_some hfind
  have hres := mem_nodup_find? hN (hperm.mem_iff.mp hv)
  rwa [hvid] at hres

/-- syncFromCloud, unfolded on the guarded path. -/
theorem syncFromCloud_eq (s : St) (uid : String) (hu : s.currentUser = some uid)
    (hp : s.syncInProgress = false) :
    syncFromCloud s =
      (let r := (sortByCreatedAtDesc s.remote).foldl
          (pullStep (s.entries.map (fun e => e.id)))
          (s.entries, { s with syncInProgress := true, currentUser := some uid })
       let s2 := saveEntries r.2 (sortByCreatedAtDesc r.1)
       { s2 with
          lastSyncTime := s2.clock.headD 0
          clock := s2.clock.tail
          syncInProgress := false }) := by
  unfold syncFromCloud
  simp only [getCurrentUserId, hu]
  rw [if_neg (by simp [hp])]
  rfl

/-- C2: the pull phase inserts every remote entry whose id is locally
absent; for a remote entry whose id exists locally it overwrites the local
record if and only if the remote syncedAt is strictly newer than the local
one (missing treated as 0), preserving the locally-held thumbnail in the
overwrite; afterwards the collection is sorted by createdAt descending and
persisted with exactly one whole-collection write. -/
theorem syncFromCloud_pull_spec (s : St) (uid : String)
    (hu : s.currentUser = some uid)
    (hp : s.syncInProgress = false)
    (hl : (s.entries.map (fun e => e.id)).Nodup)
    (hr : (s.remote.map (fun e => e.id)).Nodup) :
    (∀ ce ∈ s.remote, ce.id ∉ s.entries.map (fun e => e.id) →
        ∃ e ∈ (syncFromCloud s).entries, e.id = ce.id) ∧
    (∀ ce ∈ s.remote, ∀ le ∈ s.entries, le.id = ce.id →
        (syncFromCloud s).entries.find? (fun e => e.id = ce.id) =
          some (if cloudNewer ce le then
              { ce with media := { ce.media with thumbnail := le.media.thumbnail } }
            else le)) ∧
    List.Pairwise (fun a b : Entry => b.createdAt ≤ a.createdAt) (syncFromCloud s).entries ∧
    (syncFromCloud s).entriesWrites = s.entriesWrites + 1 := by
  rw [syncFromCloud_eq s uid hu hp]
  have hperm : (sortByCreatedAtDesc s.remote).Perm s.remote :=
    List.perm_insertionSort _ _
  have hcN : ((sortByCreatedAtDesc s.remote).map (fun e => e.id)).Nodup :=
    ((hperm.map (fun e => e.id)).nodup_iff).mpr hr
  set lids := s.entries.map (fun e => e.id) with hlids
  set r := (sortByCreatedAtDesc s.remote).foldl (pullStep lids)
    (s.entries, { s with syncInProgress := true, currentUser := some uid }) with hrdef
  have hmerged_ids : r.1.map (fun e => e.id) =
      lids ++ ((sortByCreatedAtDesc s.remote).filter
        (fun ce => ¬ ce.id ∈ lids)).map (fun e => e.id) := by
    rw [hrdef]
    exact pullFold_map_id lids (sortByCreatedAtDesc s.remote) s.entries _
  have hmergedN : (r.1.map (fun e => e.id)).Nodup := by
    rw [hmerged_ids]
    rw [List.nodup_append]
    refine ⟨hl, ?_, ?_⟩
    · exact ((List.filter_sublist _).map _).nodup hcN
    · intro x hx hx2
      have := List.mem_map.mp hx2
      obtain ⟨ce, hce, hceid⟩ := this
      have := List.mem_filter.mp hce
      rw [hceid] at this
      simp only [decide_not, Bool.not_eq_true', decide_eq_false_iff_not] at this
      exact this.2 hx
  have hsortN : ((sortByCreatedAtDesc r.1).map (fun e => e.id)).Nodup :=
    (((List.perm_insertionSort _ r.1).map (fun e => e.id)).nodup_iff).mpr hmergedN
  refine ⟨?_, ?_, ?_, ?_⟩
  · intro ce hce hnot
    have hmem : ce ∈ sortByCreatedAtDesc s.remote := (List.mem_insertionSort _).mpr hce
    have hchar := (pullFold_find?_char lids (sortByCreatedAtDesc s.remote) hcN
      s.entries { s with syncInProgress := true, currentUser := some uid } ce hmem).2
    have hnone : s.entries.find? (fun e => e.id = ce.id) = none :=
      find?_id_none_of_not_mem hnot
    obtain ⟨e', hfind', hid'⟩ := hchar hnone hnot
    refine ⟨e', ?_, hid'⟩
    have hh : e' ∈ r.1 := List.mem_of_find?_eq_some hfind'
    exact (List.mem_insertionSort _).mpr hh
  · intro ce hce le hle hid
    have hmem : ce ∈ sortByCreatedAtDesc s.remote := (List.mem_insertionSort _).mpr hce
    have hchar := (pullFold_find?_char lids (sortByCreatedAtDesc s.remote) hcN
      s.entries { s with syncInProgress := true, currentUser := some uid } ce hmem).1
    have hfind0 : s.entries.find? (fun e => e.id = ce.id) = some le := by
      have := mem_nodup_find? hl hle
      rwa [hid] at this
    have hmemid : ce.id ∈ lids := by
      rw [hlids, ← hid]
      exact List.mem_map_of_mem _ hle
    have hfinal := hchar le hfind0 hmemid
    exact find?_perm_of_nodup (List.perm_insertionSort _ r.1).symm hsortN hfinal
  · have hst := @List.sorted_insertionSort Entry (fun a b => b.createdAt ≤ a.createdAt) _
      ⟨fun a b => le_total b.createdAt a.createdAt⟩
      ⟨fun a b c hab hbc => le_trans hbc hab⟩ r.1
    exact hst
  · show (saveEntries r.2 (sortByCreatedAtDesc r.1)).entriesWrites = s.entriesWrites + 1
    have hew : r.2.entriesWrites = s.entriesWrites :=
      (pullFold_snd_frame lids (sortByCreatedAtDesc s.remote) s.entries
        { s with syncInProgress := true, currentUser := some uid }).1
    simp [saveEntries, hew]

/-- The remote document of the pull witness store. -/
def rEntry : Entry := { eVote with id := "r1", syncedAt := some 5 }

/-- A store for the pull witness: one local entry, one remote document. -/
def sPull : St :=
  { st0 with
      currentUser := some "u"
      entries := [eVote]
      remote := [rEntry] }

/-- Witness for C2 on the concrete store. -/
theorem syncFromCloud_pull_spec_witness :
    sPull.currentUser = some "u" ∧ sPull.syncInProgress = false ∧
    (sPull.entries.map (fun e => e.id)).Nodup ∧
    (sPull.remote.map (fun e => e.id)).Nodup ∧
    (syncFromCloud sPull).entriesWrites = sPull.entriesWrites + 1 :=
  ⟨rfl, rfl, by decide, by decide,
    (syncFromCloud_pull_spec sPull "u" rfl rfl (by decide) (by decide)).2.2.2⟩

/-- A comment owned by the scenario caller, for the delete witness. -/
def cMine : Comment := ⟨"c5", "u1", "Me", "mine", 2, none, 0, 0, none⟩

/-- An entry holding the caller-owned comment. -/
def eMine : Entry :=
  { id := "e5"
    createdAt := 1
    media := ⟨"image", none, none⟩
    params := default
    beans := none
    rating := 0
    notes := ""
    comments := some [cMine]
    user := some ⟨"u1", "Me", none⟩
    isPublic := false
    syncedAt := none
    userId := none }

/-- Store for the delete witness. -/
def sMine : St := { st0 with entries := [eMine], profile := some pMe }

/-- Witness for C5: the delete theorem applied at a concrete owned comment. -/
theorem deleteComment_spec_witness :
    cMine.userId = pMe.id ∧ deleteScenarioB :=
  ⟨rfl, (deleteComment_spec sMine pMe "e5" "c5" 0 eMine [cMine] cMine rfl (by decide)
      rfl rfl (by decide) rfl).2.2.2⟩

-- ==========================================
-- C3: fullSync run twice
-- ==========================================

/-- Store for the idempotence counterexample: one never-synced local entry,
signed in, empty cloud, strictly increasing clock. -/
def sIdem : St :=
  { st0 with
      currentUser := some "u"
      profile := some pMe
      entries := [eVote]
      clock := [1, 2, 3, 4, 5, 6] }

/-- C3 counterexample: running performFullSync twice in a row from sIdem
(no changes in between) does NOT leave the remote entry collection
byte-for-byte unchanged — each push stamps a fresh syncedAt (2 after the
first run, 5 after the second). -/
theorem performFullSync_not_byte_identical :
    (performFullSync sIdem).remote.map (fun e => e.syncedAt) = [some 2] ∧
    (performFullSync (performFullSync sIdem)).remote.map (fun e => e.syncedAt) = [some 5] ∧
    (performFullSync (performFullSync sIdem)).remote ≠ (performFullSync sIdem).remote := by
  have h1 : (performFullSync sIdem).remote.map (fun e => e.syncedAt) = [some 2] := by decide
  have h2 : (performFullSync (performFullSync sIdem)).remote.map (fun e => e.syncedAt) =
      [some 5] := by decide
  refine ⟨h1, h2, fun h => ?_⟩
  have hc := congrArg (List.map (fun e : Entry => e.syncedAt)) h
  rw [h1, h2] at hc
  exact absurd hc (by decide)

/-- The media URL a push records for an entry: a fresh upload URL when a
local blob exists and no remote URL is recorded, else the already-recorded
URL (JS-normalised). -/
def pushUrl (blobs : List (String × String)) (uid : String) (e : Entry) : Option String :=
  if (alookup blobs e.id).isSome ∧ ¬ strTruthy e.media.cloudUrl then
    some (cloudUrlFor uid e.id)
  else orNull e.media.cloudUrl

/-- The local-entry update a push performs (records the cloud URL when one
is known). -/
def pushLocalUpdate (blobs : List (String × String)) (uid : String) (e : Entry) : Entry :=
  if strTruthy (pushUrl blobs uid e) then
    { e with media := { e.media with cloudUrl := pushUrl blobs uid e } }
  else e

/-- Erase the cloud-sync bookkeeping fields. -/
def scrub (e : Entry) : Entry := { e with syncedAt := none, userId := none }

/-- The remote document a push writes for an entry. -/
def cloudDoc (e : Entry) (url : Option String) (t : ℤ) (uid : String) : Entry :=
  { e with media := ⟨e.media.type, none, url⟩, syncedAt := some t, userId := some uid }

theorem scrub_cloudDoc (e : Entry) (url : Option String) (t : ℤ) (uid : String) :
    scrub (cloudDoc e url t uid) = scrub (cloudDoc e url 0 uid) := rfl

theorem getD_found (L : List Entry) (cid : String) (le : Entry)
    (hfind : L.find? (fun e => e.id = cid) = some le) :
    L.getD ((L.findIdx? (fun e => e.id = cid)).getD 0) default = le := by
  induction L with
  | nil => cases hfind
  | cons a t ih =>
    by_cases ha : a.id = cid
    · have hle : le = a := by
        rw [List.find?_cons_of_pos _ (by simp [ha])] at hfind
        exact (Option.some.inj hfind).symm
      have hidx : (a :: t).findIdx? (fun e => e.id = cid) = some 0 := by
        rw [List.findIdx?_cons, if_pos (by simp [ha])]
      rw [hidx]
      simp [hle]
    · rw [List.find?_cons_of_neg _ (by simp [ha])] at hfind
      have hidx0 : t.findIdx? (fun e => e.id = cid) ≠ none := by
        intro hn
        have hall := List.findIdx?_eq_none_iff.mp hn
        rw [List.find?_eq_none.mpr (by simpa using hall)] at hfind
        cases hfind
      cases hidxt : t.findIdx? (fun e => e.id = cid) with
      | none => exact absurd hidxt hidx0
      | some n =>
        have hidx : (a :: t).findIdx? (fun e => e.id = cid) = some (n + 1) := by
          rw [List.findIdx?_cons, if_neg (by simp [ha]), List.findIdx?_succ, hidxt]
          rfl
        rw [hidx]
        have hrec := ih hfind
        rw [hidxt] at hrec
        simpa using hrec

theorem addToPublicFeed_frame (s : St) (e : Entry) (url : Option String) :
    (addToPublicFeed s e url).2.currentUser = s.currentUser ∧
    (addToPublicFeed s e url).2.blobs = s.blobs ∧
    (addToPublicFeed s e url).2.remote = s.remote ∧
    (addToPublicFeed s e url).2.remoteBlobs = s.remoteBlobs ∧
    (addToPublicFeed s e url).2.entries = s.entries ∧
    (addToPublicFeed s e url).2.syncInProgress = s.syncInProgress := by
  unfold addToPublicFeed getCurrentUserId getProfile stGenId stNow
  cases hc : s.currentUser <;> cases hp : s.profile <;> simp [hc, hp]

theorem removeFromPublicFeed_frame (s : St) (x : String) :
    (removeFromPublicFeed s x).currentUser = s.currentUser ∧
    (removeFromPublicFeed s x).blobs = s.blobs ∧
    (removeFromPublicFeed s x).remote = s.remote ∧
    (removeFromPublicFeed s x).remoteBlobs = s.remoteBlobs ∧
    (removeFromPublicFeed s x).entries = s.entries ∧
    (removeFromPublicFeed s x).syncInProgress = s.syncInProgress :=
  ⟨rfl, rfl, rfl, rfl, rfl, rfl⟩

theorem cloudUrlFor_ne_empty (uid entryId : String) : cloudUrlFor uid entryId ≠ "" := by
  unfold cloudUrlFor
  intro h
  have hl := congrArg String.length h
  simp [String.length_append] at hl
  have hc : "/media".length = 6 := rfl
  rw [hc] at hl
  cases hl.2

theorem syncEntryToCloud_spec (st : St) (uid : String) (e : Entry) (blob : Option String)
    (hu : st.currentUser = some uid) :
    (syncEntryToCloud st e blob).2.currentUser = some uid ∧
    (syncEntryToCloud st e blob).2.blobs = st.blobs ∧
    (syncEntryToCloud st e blob).2.syncInProgress = st.syncInProgress ∧
    (syncEntryToCloud st e blob).2.remote =
      setRemoteDoc st.remote
        (cloudDoc e
          (match blob with
            | some _ => some (cloudUrlFor uid e.id)
            | none => orNull e.media.cloudUrl)
          (st.clock.headD 0) uid) ∧
    (blob = none → (syncEntryToCloud st e blob).2.remoteBlobs = st.remoteBlobs) ∧
    (syncEntryToCloud st e blob).2.entries =
      (if strTruthy
          (match blob with
            | some _ => some (cloudUrlFor uid e.id)
            | none => orNull e.media.cloudUrl) then
        match st.entries.findIdx? (fun x => x.id = e.id) with
        | some i =>
          st.entries.set i
            { (st.entries.getD i default) with
                media := { (st.entries.getD i default).media with
                    cloudUrl :=
                      (match blob with
                        | some _ => some (cloudUrlFor uid e.id)
                        | none => orNull e.media.cloudUrl) } }
        | none => st.entries
      else st.entries) := by
  cases blob with
  | none =>
    unfold syncEntryToCloud getCurrentUserId stNow
    rw [hu]
    dsimp only
    by_cases ht : strTruthy (orNull e.media.cloudUrl)
    · rw [if_pos ht, if_pos ht]
      cases hidx : st.entries.findIdx? (fun x => x.id = e.id) with
      | some i =>
        simp only [hidx]
        by_cases hpub : e.isPublic
        · rw [if_pos hpub]
          exact ⟨by rw [(addToPublicFeed_frame _ e _).1]; exact hu,
            by rw [(addToPublicFeed_frame _ e _).2.1] <;> rfl,
            by rw [(addToPublicFeed_frame _ e _).2.2.2.2.2] <;> rfl,
            by rw [(addToPublicFeed_frame _ e _).2.2.1] <;> rfl,
            fun _ => by rw [(addToPublicFeed_frame _ e _).2.2.2.1] <;> rfl,
            by rw [(addToPublicFeed_frame _ e _).2.2.2.2.1] <;> rfl⟩
        · rw [if_neg hpub]
          exact ⟨hu, rfl, rfl, rfl, fun _ => rfl, rfl⟩
      | none =>
        simp only [hidx]
        by_cases hpub : e.isPublic
        · rw [if_pos hpub]
          exact ⟨by rw [(addToPublicFeed_frame _ e _).1]; exact hu,
            by rw [(addToPublicFeed_frame _ e _).2.1] <;> rfl,
            by rw [(addToPublicFeed_frame _ e _).2.2.2.2.2] <;> rfl,
            by rw [(addToPublicFeed_frame _ e _).2.2.1] <;> rfl,
            fun _ => by rw [(addToPublicFeed_frame _ e _).2.2.2.1] <;> rfl,
            by rw [(addToPublicFeed_frame _ e _).2.2.2.2.1] <;> rfl⟩
        · rw [if_neg hpub]
          exact ⟨hu, rfl, rfl, rfl, fun _ => rfl, rfl⟩
    · rw [if_neg ht, if_neg ht]
      by_cases hpub : e.isPublic
      · rw [if_pos hpub]
        exact ⟨by rw [(addToPublicFeed_frame _ e _).1]; exact hu,
          by rw [(addToPublicFeed_frame _ e _).2.1] <;> rfl,
          by rw [(addToPublicFeed_frame _ e _).2.2.2.2.2] <;> rfl,
          by rw [(addToPublicFeed_frame _ e _).2.2.1] <;> rfl,
          fun _ => by rw [(addToPublicFeed_frame _ e _).2.2.2.1] <;> rfl,
          by rw [(addToPublicFeed_frame _ e _).2.2.2.2.1] <;> rfl⟩
      · rw [if_neg hpub]
        exact ⟨hu, rfl, rfl, rfl, fun _ => rfl, rfl⟩
  | some b =>
    unfold syncEntryToCloud uploadMediaToCloud getCurrentUserId stNow
    rw [hu]
    dsimp only
    have htu : strTruthy (some (cloudUrlFor uid e.id)) = true := by
      simp only [strTruthy, decide_eq_true_eq]
      exact cloudUrlFor_ne_empty uid e.id
    rw [if_pos htu, if_pos htu]
    cases hidx : st.entries.findIdx? (fun x => x.id = e.id) with
    | some i =>
      simp only [hidx]
      by_cases hpub : e.isPublic
      · rw [if_pos hpub]
        exact ⟨by rw [(addToPublicFeed_frame _ e _).1] <;> rfl,
          by rw [(addToPublicFeed_frame _ e _).2.1] <;> rfl,
          by rw [(addToPublicFeed_frame _ e _).2.2.2.2.2] <;> rfl,
          by rw [(addToPublicFeed_frame _ e _).2.2.1] <;> rfl,
          fun hc => Option.noConfusion hc,
          by rw [(addToPublicFeed_frame _ e _).2.2.2.2.1] <;> rfl⟩
      · rw [if_neg hpub]
        exact ⟨rfl, rfl, rfl, rfl, fun hc => Option.noConfusion hc, rfl⟩
    | none =>
      simp only [hidx]
      by_cases hpub : e.isPublic
      · rw [if_pos hpub]
        exact ⟨by rw [(addToPublicFeed_frame _ e _).1] <;> rfl,
          by rw [(addToPublicFeed_frame _ e _).2.1] <;> rfl,
          by rw [(addToPublicFeed_frame _ e _).2.2.2.2.2] <;> rfl,
          by rw [(addToPublicFeed_frame _ e _).2.2.1] <;> rfl,
          fun hc => Option.noConfusion hc,
          by rw [(addToPublicFeed_frame _ e _).2.2.2.2.1] <;> rfl⟩
      · rw [if_neg hpub]
        exact ⟨rfl, rfl, rfl, rfl, fun hc => Option.noConfusion hc, rfl⟩

theorem pushStep_spec (st : St) (uid : String) (e : Entry) (hu : st.currentUser = some uid) :
    (pushStep st e).currentUser = some uid ∧
    (pushStep st e).blobs = st.blobs ∧
    (pushStep st e).syncInProgress = st.syncInProgress ∧
    (pushStep st e).remote =
      setRemoteDoc st.remote (cloudDoc e (pushUrl st.blobs uid e) (st.clock.headD 0) uid) ∧
    (¬ ((alookup st.blobs e.id).isSome ∧ ¬ strTruthy e.media.cloudUrl) →
      (pushStep st e).remoteBlobs = st.remoteBlobs) ∧
    (pushStep st e).entries =
      (if strTruthy (pushUrl st.blobs uid e) then
        match st.entries.findIdx? (fun x => x.id = e.id) with
        | some i =>
          st.entries.set i
            { (st.entries.getD i default) with
                media := { (st.entries.getD i default).media with
                    cloudUrl := pushUrl st.blobs uid e } }
        | none => st.entries
      else st.entries) := by
  unfold pushStep
  dsimp only
  by_cases hn : (alookup st.blobs e.id).isSome ∧ ¬ strTruthy e.media.cloudUrl
  · rw [if_pos hn]
    have hurl : pushUrl st.blobs uid e = some (cloudUrlFor uid e.id) := by
      rw [pushUrl, if_pos hn]
    cases hb : alookup st.blobs e.id with
    | none =>
      rw [hb] at hn
      exact absurd hn.1 (by simp)
    | some b =>
      have hspec := syncEntryToCloud_spec st uid e (some b) hu
      rw [hurl]
      exact ⟨hspec.1, hspec.2.1, hspec.2.2.1, hspec.2.2.2.1,
        fun hcon => absurd ⟨rfl, hn.2⟩ hcon, hspec.2.2.2.2.2⟩
  · rw [if_neg hn]
    have hurl : pushUrl st.blobs uid e = orNull e.media.cloudUrl := by
      rw [pushUrl, if_neg hn]
    have hspec := syncEntryToCloud_spec st uid e none hu
    rw [hurl]
    exact ⟨hspec.1, hspec.2.1, hspec.2.2.1, hspec.2.2.2.1,
      fun _ => hspec.2.2.2.2.1 rfl, hspec.2.2.2.2.2⟩

-- setRemoteDoc structure lemmas

theorem setRemoteDoc_mem (R : List Entry) (doc : Entry) :
    ∀ d ∈ setRemoteDoc R doc, d = doc ∨ (d ∈ R ∧ d.id ≠ doc.id) := by
  unfold setRemoteDoc
  by_cases hp : R.any (fun x => x.id = doc.id)
  · rw [if_pos hp]
    intro d hd
    obtain ⟨x, hx, hxd⟩ := List.mem_map.mp hd
    by_cases hxid : x.id = doc.id
    · left
      rw [← hxd]
      simp [hxid]
    · right
      rw [← hxd]
      simp only [hxid, if_false]
      exact ⟨hx, hxid⟩
  · rw [if_neg hp]
    intro d hd
    rcases List.mem_append.mp hd with hL | hR
    · right
      refine ⟨hL, ?_⟩
      intro hid
      apply hp
      exact List.any_eq_true.mpr ⟨d, hL, by simp [hid]⟩
    · left
      simpa using hR

theorem setRemoteDoc_pres_id (R : List Entry) (doc : Entry) (x : String)
    (h : ∃ d ∈ R, d.id = x) : ∃ d ∈ setRemoteDoc R doc, d.id = x := by
  unfold setRemoteDoc
  obtain ⟨d, hd, hdx⟩ := h
  by_cases hp : R.any (fun y => y.id = doc.id)
  · rw [if_pos hp]
    by_cases hdid : d.id = doc.id
    · refine ⟨doc, ?_, by rw [← hdx, hdid]⟩
      rw [List.mem_map]
      exact ⟨d, hd, by simp [hdid]⟩
    · refine ⟨d, ?_, hdx⟩
      rw [List.mem_map]
      exact ⟨d, hd, by simp [hdid]⟩
  · rw [if_neg hp]
    exact ⟨d, List.mem_append.mpr (Or.inl hd), hdx⟩

theorem setRemoteDoc_self_id (R : List Entry) (doc : Entry) :
    ∃ d ∈ setRemoteDoc R doc, d.id = doc.id := by
  unfold setRemoteDoc
  by_cases hp : R.any (fun y => y.id = doc.id)
  · rw [if_pos hp]
    obtain ⟨x, hx, hxid⟩ := List.any_eq_true.mp hp
    refine ⟨doc, ?_, rfl⟩
    rw [List.mem_map]
    exact ⟨x, hx, by simp [by simpa using hxid]⟩
  · rw [if_neg hp]
    exact ⟨doc, List.mem_append.mpr (Or.inr (by simp)), rfl⟩

theorem setRemoteDoc_map_id_present (R : List Entry) (doc : Entry)
    (hp : R.any (fun x => x.id = doc.id)) :
    (setRemoteDoc R doc).map (fun d => d.id) = R.map (fun d => d.id) := by
  unfold setRemoteDoc
  rw [if_pos hp, List.map_map]
  apply List.map_congr_left
  intro x hx
  by_cases h : x.id = doc.id <;> simp [h]

theorem setRemoteDoc_nodup (R : List Entry) (doc : Entry)
    (hN : (R.map (fun d => d.id)).Nodup) :
    ((setRemoteDoc R doc).map (fun d => d.id)).Nodup := by
  by_cases hp : R.any (fun x => x.id = doc.id)
  · rw [setRemoteDoc_map_id_present R doc hp]
    exact hN
  · unfold setRemoteDoc
    rw [if_neg hp, List.map_append]
    rw [List.nodup_append]
    refine ⟨hN, by simp, ?_⟩
    intro x hx hx2
    simp only [List.map_cons, List.map_nil, List.mem_cons, List.not_mem_nil, or_false] at hx2
    obtain ⟨d, hd, hdx⟩ := List.mem_map.mp hx
    apply hp
    exact List.any_eq_true.mpr ⟨d, hd, by simp [hdx, hx2]⟩

theorem setRemoteDoc_scrub_present (R : List Entry) (doc : Entry)
    (hp : R.any (fun x => x.id = doc.id)) :
    (setRemoteDoc R doc).map scrub =
      R.map (fun d => if d.id = doc.id then scrub doc else scrub d) := by
  unfold setRemoteDoc
  rw [if_pos hp, List.map_map]
  apply List.map_congr_left
  intro x hx
  by_cases h : x.id = doc.id <;> simp [h]

theorem eq_of_mem_id_eq {L : List Entry} (hN : (L.map (fun z => z.id)).Nodup)
    {x e : Entry} (hx : x ∈ L)
    (hfind : L.find? (fun z => z.id = e.id) = some e) (hid : x.id = e.id) : x = e := by
  have h1 := mem_nodup_find? hN hx
  rw [hid] at h1
  have h2 := hfind.symm.trans h1
  exact (Option.some.inj h2).symm

theorem pushStep_find?_pres (st : St) (uid : String) (e : Entry)
    (hu : st.currentUser = some uid) (z : String) (hz : z ≠ e.id) :
    (pushStep st e).entries.find? (fun x => x.id = z) =
      st.entries.find? (fun x => x.id = z) := by
  rw [(pushStep_spec st uid e hu).2.2.2.2.2]
  by_cases ht : strTruthy (pushUrl st.blobs uid e)
  · rw [if_pos ht]
    cases hidx : st.entries.findIdx? (fun x => x.id = e.id) with
    | none => rfl
    | some i =>
      cases hfind : st.entries.find? (fun x => x.id = e.id) with
      | none =>
        have hall := List.find?_eq_none.mp hfind
        have hcon : st.entries.findIdx? (fun x => x.id = e.id) = none :=
          List.findIdx?_eq_none_iff.mpr (fun x hx => by simpa using hall x hx)
        rw [hcon] at hidx
        cases hidx
      | some le =>
        dsimp only
        have hget : st.entries.getD i default = le := by
          have hg := getD_found st.entries e.id le hfind
          rw [hidx] at hg
          simpa using hg
        rw [hget]
        have hle_id : le.id = e.id := by simpa using List.find?_some hfind
        have h3 := (set_found_spec st.entries e.id
          ({ le with media := { le.media with cloudUrl := pushUrl st.blobs uid e } }) le
          hfind (by simpa using hle_id)).2.2.1 z hz
        rw [hidx] at h3
        simpa using h3
  · rw [if_neg ht]

theorem pushStep_entries_map (st : St) (uid : String) (e : Entry)
    (hu : st.currentUser = some uid)
    (hN : (st.entries.map (fun x => x.id)).Nodup)
    (hfind : st.entries.find? (fun x => x.id = e.id) = some e) :
    (pushStep st e).entries =
      st.entries.map (fun x => if x.id = e.id then pushLocalUpdate st.blobs uid e else x) := by
  rw [(pushStep_spec st uid e hu).2.2.2.2.2]
  by_cases ht : strTruthy (pushUrl st.blobs uid e)
  · rw [if_pos ht]
    cases hidx : st.entries.findIdx? (fun x => x.id = e.id) with
    | none =>
      have hall := List.findIdx?_eq_none_iff.mp hidx
      rw [List.find?_eq_none.mpr (fun x hx => by simpa using hall x hx)] at hfind
      cases hfind
    | some i =>
      dsimp only
      have hget : st.entries.getD i default = e := by
        have hg := getD_found st.entries e.id e hfind
        rw [hidx] at hg
        simpa using hg
      rw [hget]
      have heq := set_found_eq_map_replace st.entries e.id
        ({ e with media := { e.media with cloudUrl := pushUrl st.blobs uid e } }) e hfind hN
      rw [hidx] at heq
      simp only [Option.getD_some] at heq
      rw [heq]
      apply List.map_congr_left
      intro x hx
      by_cases hxid : x.id = e.id
      · simp only [hxid, if_true]
        rw [pushLocalUpdate, if_pos ht]
      · simp [hxid]
  · rw [if_neg ht]
    have : st.entries.map (fun x => if x.id = e.id then pushLocalUpdate st.blobs uid e else x) =
        st.entries.map (fun x => x) := by
      apply List.map_congr_left
      intro x hx
      by_cases hxid : x.id = e.id
      · have hxe : x = e := eq_of_mem_id_eq hN hx hfind hxid
        rw [if_pos hxid, pushLocalUpdate, if_neg ht, hxe]
      · rw [if_neg hxid]
    rw [this, List.map_id']

theorem pushStep_map_id (st : St) (uid : String) (e : Entry)
    (hu : st.currentUser = some uid) :
    (pushStep st e).entries.map (fun x => x.id) = st.entries.map (fun x => x.id) := by
  rw [(pushStep_spec st uid e hu).2.2.2.2.2]
  by_cases ht : strTruthy (pushUrl st.blobs uid e)
  · rw [if_pos ht]
    cases hidx : st.entries.findIdx? (fun x => x.id = e.id) with
    | none => rfl
    | some i =>
      cases hfind : st.entries.find? (fun x => x.id = e.id) with
      | none =>
        have hall := List.find?_eq_none.mp hfind
        have hcon : st.entries.findIdx? (fun x => x.id = e.id) = none :=
          List.findIdx?_eq_none_iff.mpr (fun x hx => by simpa using hall x hx)
        rw [hcon] at hidx
        cases hidx
      | some le =>
        dsimp only
        have hget : st.entries.getD i default = le := by
          have hg := getD_found st.entries e.id le hfind
          rw [hidx] at hg
          simpa using hg
        rw [hget]
        have hle_id : le.id = e.id := by simpa using List.find?_some hfind
        have h1 := (set_found_spec st.entries e.id
          ({ le with media := { le.media with cloudUrl := pushUrl st.blobs uid e } }) le
          hfind (by simpa using hle_id)).1
        rw [hidx] at h1
        simpa using h1
  · rw [if_neg ht]

theorem eq_of_find?_id {L : List Entry} (hN : (L.map (fun z => z.id)).Nodup)
    {x d : Entry} {w : String} (hx : x ∈ L)
    (hfind : L.find? (fun z => z.id = w) = some d) (hid : x.id = w) : x = d := by
  have h1 := mem_nodup_find? hN hx
  rw [hid] at h1
  exact Option.some.inj (h1.symm.trans hfind)

theorem find?_map_replace_ne (R : List Entry) (doc : Entry) (z : String) (hz : z ≠ doc.id) :
    (R.map (fun x => if x.id = doc.id then doc else x)).find? (fun y => y.id = z) =
      R.find? (fun y => y.id = z) := by
  induction R with
  | nil => rfl
  | cons a t ih =>
    by_cases ha : a.id = doc.id
    · simp only [List.map_cons, if_pos ha]
      rw [List.find?_cons_of_neg _ (by simp; exact fun h => hz h.symm),
        List.find?_cons_of_neg _ (by rw [ha]; simp; exact fun h => hz h.symm)]
      exact ih
    · simp only [List.map_cons, if_neg ha]
      by_cases haz : a.id = z
      · rw [List.find?_cons_of_pos _ (by simp [haz]), List.find?_cons_of_pos _ (by simp [haz])]
      · rw [List.find?_cons_of_neg _ (by simp [haz]), List.find?_cons_of_neg _ (by simp [haz])]
        exact ih

theorem orNull_eq_self {o : Option String} (h : o ≠ some "") : orNull o = o := by
  cases o with
  | none => rfl
  | some str =>
    rw [orNull]
    rw [if_pos (by simp [strTruthy]; exact fun hc => h (by rw [hc]))]

theorem pushLocalUpdate_url (blobs : List (String × String)) (uid : String) (x : Entry)
    (h6x : (alookup blobs x.id).isSome = true → strTruthy x.media.cloudUrl = true)
    (h9x : x.media.cloudUrl ≠ some "") :
    pushUrl blobs uid x = x.media.cloudUrl := by
  rw [pushUrl]
  by_cases hb : (alookup blobs x.id).isSome
  · rw [if_neg (fun hc => hc.2 (h6x hb))]
    exact orNull_eq_self h9x
  · rw [if_neg (fun hc => hb hc.1)]
    exact orNull_eq_self h9x

theorem pushLocalUpdate_id (blobs : List (String × String)) (uid : String) (x : Entry)
    (h6x : (alookup blobs x.id).isSome = true → strTruthy x.media.cloudUrl = true)
    (h9x : x.media.cloudUrl ≠ some "") :
    pushLocalUpdate blobs uid x = x := by
  have hurl := pushLocalUpdate_url blobs uid x h6x h9x
  rw [pushLocalUpdate, hurl]
  by_cases ht : strTruthy x.media.cloudUrl
  · rw [if_pos ht]
  · rw [if_neg ht]

theorem scrub_cloudDoc_eq (a : Entry) (url : Option String) (t : ℤ) (uid : String) :
    scrub (cloudDoc a url t uid) =
      { scrub a with media := ⟨(scrub a).media.type, none, url⟩ } := rfl

theorem eq_of_scrub_eq {a b : Entry} (h : scrub a = scrub b) :
    a = { b with syncedAt := a.syncedAt, userId := a.userId } := by
  cases a
  cases b
  simp only [scrub, Entry.mk.injEq] at h ⊢
  exact ⟨h.1, h.2.1, h.2.2.1, h.2.2.2.1, h.2.2.2.2.1, h.2.2.2.2.2.1, h.2.2.2.2.2.2.1,
    h.2.2.2.2.2.2.2.1, h.2.2.2.2.2.2.2.2.1, h.2.2.2.2.2.2.2.2.2.1, trivial, trivial⟩

theorem pushFold_frame (uid : String) (todo : List Entry) :
    ∀ st : St, st.currentUser = some uid →
      (todo.foldl pushStep st).currentUser = some uid ∧
      (todo.foldl pushStep st).blobs = st.blobs ∧
      (todo.foldl pushStep st).syncInProgress = st.syncInProgress ∧
      (todo.foldl pushStep st).entries.map (fun x => x.id) =
        st.entries.map (fun x => x.id) := by
  induction todo with
  | nil => intro st hu; exact ⟨hu, rfl, rfl, rfl⟩
  | cons e rest ih =>
    intro st hu
    rw [List.foldl_cons]
    have hspec := pushStep_spec st uid e hu
    obtain ⟨g1, g2, g3, g4⟩ := ih (pushStep st e) hspec.1
    exact ⟨g1, g2.trans hspec.2.1, g3.trans hspec.2.2.1,
      g4.trans (pushStep_map_id st uid e hu)⟩

theorem pushFold_remoteBlobs (uid : String) (todo : List Entry) :
    ∀ st : St, st.currentUser = some uid →
      (∀ e ∈ todo, ¬ ((alookup st.blobs e.id).isSome ∧ ¬ strTruthy e.media.cloudUrl)) →
      (todo.foldl pushStep st).remoteBlobs = st.remoteBlobs := by
  induction todo with
  | nil => intro st _ _; rfl
  | cons e rest ih =>
    intro st hu hn
    rw [List.foldl_cons]
    have hspec := pushStep_spec st uid e hu
    have hstep := hspec.2.2.2.2.1 (hn e (by simp))
    have hrec := ih (pushStep st e) hspec.1
      (fun c hc => by rw [hspec.2.1]; exact hn c (by simp [hc]))
    exact hrec.trans hstep

theorem pushFold_entries (uid : String) (todo : List Entry) :
    ∀ st : St, st.currentUser = some uid →
      (todo.map (fun e => e.id)).Nodup →
      (st.entries.map (fun x => x.id)).Nodup →
      (∀ e ∈ todo, st.entries.find? (fun x => x.id = e.id) = some e) →
      (todo.foldl pushStep st).entries =
        st.entries.map (fun x =>
          if todo.any (fun e => e.id = x.id) then pushLocalUpdate st.blobs uid x else x) := by
  induction todo with
  | nil =>
    intro st _ _ _ _
    simp
  | cons e rest ih =>
    intro st hu hNt hN hf
    rw [List.map_cons] at hNt
    obtain ⟨hnotin, hNt'⟩ := List.nodup_cons.mp hNt
    rw [List.foldl_cons]
    have hspec := pushStep_spec st uid e hu
    have hstep := pushStep_entries_map st uid e hu hN (hf e (by simp))
    have hN1 : ((pushStep st e).entries.map (fun x => x.id)).Nodup := by
      rw [pushStep_map_id st uid e hu]
      exact hN
    have hf1 : ∀ c ∈ rest, (pushStep st e).entries.find? (fun x => x.id = c.id) = some c := by
      intro c hc
      have hne : c.id ≠ e.id := fun heq => hnotin (heq ▸ List.mem_map_of_mem _ hc)
      rw [pushStep_find?_pres st uid e hu c.id hne]
      exact hf c (by simp [hc])
    have hrec := ih (pushStep st e) hspec.1 hNt' hN1 hf1
    rw [hrec, hspec.2.1, hstep, List.map_map]
    apply List.map_congr_left
    intro x hx
    simp only [Function.comp_apply]
    by_cases hxid : x.id = e.id
    · have hxe : x = e := eq_of_mem_id_eq hN hx (hf e (by simp)) hxid
      rw [if_pos hxid]
      have hyid : (pushLocalUpdate st.blobs uid e).id = e.id := by
        rw [pushLocalUpdate]
        by_cases ht : strTruthy (pushUrl st.blobs uid e) <;> simp [ht]
      have hnany : rest.any (fun c => c.id = (pushLocalUpdate st.blobs uid e).id) = false := by
        rw [Bool.eq_false_iff]
        intro hany
        obtain ⟨c, hc, hcid⟩ := List.any_eq_true.mp hany
        rw [hyid] at hcid
        exact hnotin ((by simpa using hcid) ▸ List.mem_map_of_mem (fun z : Entry => z.id) hc)
      rw [hnany]
      have hcany : (e :: rest).any (fun c => c.id = x.id) = true :=
        List.any_eq_true.mpr ⟨e, by simp, by simp [hxid]⟩
      rw [hcany, hxe]
      simp
    · rw [if_neg hxid]
      have hcany : (e :: rest).any (fun c => c.id = x.id) = rest.any (fun c => c.id = x.id) := by
        rw [List.any_cons]
        have : ¬ (e.id = x.id) := fun heq => hxid heq.symm
        simp [this]
      rw [hcany]

theorem pushFold_remote_scrub (uid : String) (todo : List Entry) :
    ∀ st : St, st.currentUser = some uid →
      (todo.map (fun e => e.id)).Nodup →
      (st.remote.map (fun d => d.id)).Nodup →
      (∀ e ∈ todo, ∃ d, st.remote.find? (fun y => y.id = e.id) = some d ∧
        scrub d = scrub (cloudDoc e (pushUrl st.blobs uid e) 0 uid)) →
      (todo.foldl pushStep st).remote.map scrub = st.remote.map scrub ∧
      (todo.foldl pushStep st).remote.map (fun d => d.id) =
        st.remote.map (fun d => d.id) := by
  induction todo with
  | nil => intro st _ _ _ _; exact ⟨rfl, rfl⟩
  | cons e rest ih =>
    intro st hu hNt hNr h8
    rw [List.map_cons] at hNt
    obtain ⟨hnotin, hNt'⟩ := List.nodup_cons.mp hNt
    rw [List.foldl_cons]
    have hspec := pushStep_spec st uid e hu
    obtain ⟨d, hfind, hscrub⟩ := h8 e (by simp)
    have hdmem : d ∈ st.remote := List.mem_of_find?_eq_some hfind
    have hdid : d.id = e.id := by simpa using List.find?_some hfind
    have hdocid : (cloudDoc e (pushUrl st.blobs uid e) (st.clock.headD 0) uid).id = e.id := rfl
    have hp : st.remote.any
        (fun x => x.id = (cloudDoc e (pushUrl st.blobs uid e) (st.clock.headD 0) uid).id) :=
      List.any_eq_true.mpr ⟨d, hdmem, by rw [hdocid, hdid]; simp⟩
    have hrem : (pushStep st e).remote =
        st.remote.map (fun x =>
          if x.id = (cloudDoc e (pushUrl st.blobs uid e) (st.clock.headD 0) uid).id then
            cloudDoc e (pushUrl st.blobs uid e) (st.clock.headD 0) uid
          else x) := by
      rw [hspec.2.2.2.1, setRemoteDoc, if_pos hp]
    have hstep_id : (pushStep st e).remote.map (fun x => x.id) =
        st.remote.map (fun x => x.id) := by
      rw [hspec.2.2.2.1]
      exact setRemoteDoc_map_id_present st.remote _ hp
    have hstep_scrub : (pushStep st e).remote.map scrub = st.remote.map scrub := by
      rw [hspec.2.2.2.1, setRemoteDoc_scrub_present st.remote _ hp]
      apply List.map_congr_left
      intro x hx
      by_cases hxid : x.id = (cloudDoc e (pushUrl st.blobs uid e) (st.clock.headD 0) uid).id
      · rw [if_pos hxid]
        have hxd : x = d := eq_of_find?_id hNr hx hfind (by rw [hxid, hdocid])
        rw [hxd, hscrub, scrub_cloudDoc]
      · rw [if_neg hxid]
    have hNr1 : ((pushStep st e).remote.map (fun d => d.id)).Nodup := by
      rw [hstep_id]
      exact hNr
    have h81 : ∀ c ∈ rest, ∃ d2, (pushStep st e).remote.find? (fun y => y.id = c.id) = some d2 ∧
        scrub d2 = scrub (cloudDoc c (pushUrl (pushStep st e).blobs uid c) 0 uid) := by
      intro c hc
      obtain ⟨d2, hfind2, hscrub2⟩ := h8 c (by simp [hc])
      have hne : c.id ≠ (cloudDoc e (pushUrl st.blobs uid e) (st.clock.headD 0) uid).id := by
        rw [hdocid]
        exact fun heq => hnotin (heq ▸ List.mem_map_of_mem _ hc)
      refine ⟨d2, ?_, ?_⟩
      · rw [hrem, find?_map_replace_ne st.remote _ c.id hne]
        exact hfind2
      · rw [hspec.2.1]
        exact hscrub2
    obtain ⟨g1, g2⟩ := ih (pushStep st e) hspec.1 hNt' hNr1 h81
    exact ⟨g1.trans hstep_scrub, g2.trans hstep_id⟩

theorem syncFromCloud_proj (s : St) (uid : String) (hu : s.currentUser = some uid)
    (hp : s.syncInProgress = false) :
    (syncFromCloud s).entries =
      sortByCreatedAtDesc ((sortByCreatedAtDesc s.remote).foldl
        (pullStep (s.entries.map (fun e => e.id)))
        (s.entries, { s with syncInProgress := true, currentUser := some uid })).1 ∧
    (syncFromCloud s).blobs =
      ((sortByCreatedAtDesc s.remote).foldl
        (pullStep (s.entries.map (fun e => e.id)))
        (s.entries, { s with syncInProgress := true, currentUser := some uid })).2.blobs ∧
    (syncFromCloud s).remote =
      ((sortByCreatedAtDesc s.remote).foldl
        (pullStep (s.entries.map (fun e => e.id)))
        (s.entries, { s with syncInProgress := true, currentUser := some uid })).2.remote ∧
    (syncFromCloud s).remoteBlobs =
      ((sortByCreatedAtDesc s.remote).foldl
        (pullStep (s.entries.map (fun e => e.id)))
        (s.entries, { s with syncInProgress := true, currentUser := some uid })).2.remoteBlobs ∧
    (syncFromCloud s).currentUser =
      ((sortByCreatedAtDesc s.remote).foldl
        (pullStep (s.entries.map (fun e => e.id)))
        (s.entries, { s with syncInProgress := true, currentUser := some uid })).2.currentUser ∧
    (syncFromCloud s).syncInProgress = false := by
  rw [syncFromCloud_eq s uid hu hp]
  exact ⟨rfl, rfl, rfl, rfl, rfl, rfl⟩

theorem syncAllToCloud_proj (t : St) (uid : String) (hu : t.currentUser = some uid) :
    (syncAllToCloud t).entries = (t.entries.foldl pushStep t).entries ∧
    (syncAllToCloud t).remote = (t.entries.foldl pushStep t).remote ∧
    (syncAllToCloud t).remoteBlobs = (t.entries.foldl pushStep t).remoteBlobs := by
  unfold syncAllToCloud getCurrentUserId stNow
  rw [hu]
  exact ⟨rfl, rfl, rfl⟩

theorem pushUrl_congr (blobs : List (String × String)) (uid : String) {x y : Entry}
    (hid : x.id = y.id) (hm : x.media = y.media) :
    pushUrl blobs uid x = pushUrl blobs uid y := by
  rw [pushUrl, pushUrl, hid, hm]

theorem map_proj_scrub (β : Type) (f : Entry → β) (hf : ∀ e, f (scrub e) = f e)
    (L : List Entry) : (L.map scrub).map f = L.map f := by
  rw [List.map_map]
  exact List.map_congr_left (fun e _ => hf e)

theorem pull_overwrite_invisible (uid : String) {s : St}
    (hr : (s.remote.map (fun d => d.id)).Nodup)
    (h8 : ∀ e ∈ s.entries, ∃ d ∈ s.remote, d.id = e.id ∧
        scrub d = scrub (cloudDoc e (pushUrl s.blobs uid e) 0 uid))
    (h6 : ∀ e ∈ s.entries, (alookup s.blobs e.id).isSome = true →
        strTruthy e.media.cloudUrl = true)
    (h9 : ∀ e ∈ s.entries, e.media.cloudUrl ≠ some "") :
    ∀ ce ∈ s.remote, ∀ le, s.entries.find? (fun e => e.id = ce.id) = some le →
      scrub { ce with media := { ce.media with thumbnail := le.media.thumbnail } } =
        scrub le := by
  intro ce hce le hfindle
  have hlem : le ∈ s.entries := List.mem_of_find?_eq_some hfindle
  have hleid : le.id = ce.id := by simpa using List.find?_some hfindle
  obtain ⟨d, hdmem, hdid, hdscr⟩ := h8 le hlem
  have hfindd : s.remote.find? (fun y => y.id = le.id) = some d := by
    have h1 := mem_nodup_find? hr hdmem
    rw [hdid] at h1
    exact h1
  have hced : ce = d := eq_of_find?_id hr hce hfindd hleid.symm
  have hscr_ce : scrub ce = scrub (cloudDoc le (pushUrl s.blobs uid le) 0 uid) := by
    rw [hced]
    exact hdscr
  have hurl : pushUrl s.blobs uid le = le.media.cloudUrl :=
    pushLocalUpdate_url s.blobs uid le (h6 le hlem) (h9 le hlem)
  obtain ⟨sa, su, hce2⟩ :
      ∃ sa su, ce =
        { cloudDoc le (pushUrl s.blobs uid le) 0 uid with syncedAt := sa, userId := su } :=
    ⟨ce.syncedAt, ce.userId, eq_of_scrub_eq hscr_ce⟩
  subst hce2
  rw [hurl]
  rfl

theorem scrub_id_eq {x y : Entry} (h : scrub x = scrub y) : x.id = y.id := by
  have h2 := congrArg Entry.id h
  exact h2

theorem scrub_media_eq {x y : Entry} (h : scrub x = scrub y) : x.media = y.media := by
  have h2 := congrArg Entry.media h
  exact h2

/-- C3 (corrected): running the full sync again on a synced state is NOT
byte-for-byte identity (see `performFullSync_not_byte_identical`: every push
restamps `syncedAt`/`userId`), but it is idempotent modulo those bookkeeping
fields. On any synced state — the current user is set, no sync is in flight,
local and remote ids are duplicate-free, every remote id exists locally,
every local entry has a remote document that agrees with what a push of
that entry would write (up to bookkeeping), every locally-blobbed entry
records a cloud URL, the collection is sorted by createdAt descending, and
no recorded cloud URL is the empty string (all of which hold after a full
sync, as the witness exhibits on a concrete two-run composition) — a
further performFullSync leaves every local entry and every remote document
unchanged except the `syncedAt`/`userId` bookkeeping fields, creates no
duplicate entries, and re-uploads no media blob (the remote blob store is
unchanged, because the needs-upload decision is based solely on the
recorded remote media URL). -/
theorem performFullSync_idempotent_mod_bookkeeping (s : St) (uid : String)
    (hu : s.currentUser = some uid)
    (hsp : s.syncInProgress = false)
    (hl : (s.entries.map (fun e => e.id)).Nodup)
    (hr : (s.remote.map (fun d => d.id)).Nodup)
    (h5 : ∀ d ∈ s.remote, d.id ∈ s.entries.map (fun e => e.id))
    (h8 : ∀ e ∈ s.entries, ∃ d ∈ s.remote, d.id = e.id ∧
        scrub d = scrub (cloudDoc e (pushUrl s.blobs uid e) 0 uid))
    (h6 : ∀ e ∈ s.entries, (alookup s.blobs e.id).isSome = true →
        strTruthy e.media.cloudUrl = true)
    (h7 : List.Pairwise (fun a b : Entry => b.createdAt ≤ a.createdAt) s.entries)
    (h9 : ∀ e ∈ s.entries, e.media.cloudUrl ≠ some "") :
    (performFullSync s).entries.map scrub = s.entries.map scrub ∧
    (performFullSync s).remote.map scrub = s.remote.map scrub ∧
    (performFullSync s).remoteBlobs = s.remoteBlobs ∧
    ((performFullSync s).entries.map (fun e => e.id)).Nodup := by
  have hpf : performFullSync s = syncAllToCloud (syncFromCloud s) := by
    unfold performFullSync getCurrentUserId
    rw [hu]
  obtain ⟨hPe, hPb, hPr, hPrb, hPu0, hPsp⟩ := syncFromCloud_proj s uid hu hsp
  set lids := s.entries.map (fun e => e.id) with hlids
  set cs := sortByCreatedAtDesc s.remote with hcsdef
  set r := cs.foldl (pullStep lids)
    (s.entries, { s with syncInProgress := true, currentUser := some uid }) with hrdef
  have hperm : cs.Perm s.remote := List.perm_insertionSort _ _
  have hcsN : (cs.map (fun d => d.id)).Nodup :=
    ((hperm.map (fun d => d.id)).nodup_iff).mpr hr
  have hall : ∀ ce ∈ cs, ce.id ∈ lids := fun ce hce => h5 ce (hperm.mem_iff.mp hce)
  have hinvis := pull_overwrite_invisible uid hr h8 h6 h9
  have hA_scrub : r.1.map scrub = s.entries.map scrub :=
    pullFold_map_f lids cs Entry scrub hcsN s.entries
      { s with syncInProgress := true, currentUser := some uid } hall
      (fun ce hce le hf => hinvis ce (hperm.mem_iff.mp hce) le hf)
  have hA_snd : r.2 = { s with syncInProgress := true, currentUser := some uid } :=
    pullFold_snd_of_all_mem lids cs hall s.entries
      { s with syncInProgress := true, currentUser := some uid }
  have hA_id : r.1.map (fun e => e.id) = lids := by
    have h1 : r.1.map (fun e => e.id) = (r.1.map scrub).map (fun e => e.id) :=
      (map_proj_scrub _ (fun e => e.id) (fun e => rfl) r.1).symm
    rw [h1, hA_scrub, map_proj_scrub _ (fun e => e.id) (fun e => rfl)]
  have hA_created : r.1.map (fun e => e.createdAt) = s.entries.map (fun e => e.createdAt) := by
    have h1 : r.1.map (fun e => e.createdAt) = (r.1.map scrub).map (fun e => e.createdAt) :=
      (map_proj_scrub _ (fun e => e.createdAt) (fun e => rfl) r.1).symm
    rw [h1, hA_scrub, map_proj_scrub _ (fun e => e.createdAt) (fun e => rfl)]
  have hA_sorted : List.Pairwise (fun a b : Entry => b.createdAt ≤ a.createdAt) r.1 := by
    have h2 : (s.entries.map (fun e => e.createdAt)).Pairwise (fun x y : ℤ => y ≤ x) :=
      List.pairwise_map.mpr h7
    rw [← hA_created] at h2
    exact List.pairwise_map.mp h2
  have hA_sort_id : sortByCreatedAtDesc r.1 = r.1 := by
    rw [sortByCreatedAtDesc]
    exact List.Sorted.insertionSort_eq hA_sorted
  have hPu : (syncFromCloud s).currentUser = some uid := by rw [hPu0, hA_snd]
  have hPb' : (syncFromCloud s).blobs = s.blobs := by rw [hPb, hA_snd]
  have hPr' : (syncFromCloud s).remote = s.remote := by rw [hPr, hA_snd]
  have hPrb' : (syncFromCloud s).remoteBlobs = s.remoteBlobs := by rw [hPrb, hA_snd]
  have hPe' : (syncFromCloud s).entries = r.1 := by rw [hPe, hA_sort_id]
  set sP := syncFromCloud s with hsPdef
  obtain ⟨hBe, hBr, hBrb⟩ := syncAllToCloud_proj sP uid hPu
  have hPeNodup : (sP.entries.map (fun e => e.id)).Nodup := by
    rw [hPe', hA_id]
    exact hl
  have hPf : ∀ e ∈ sP.entries, sP.entries.find? (fun x => x.id = e.id) = some e :=
    fun e he => mem_nodup_find? hPeNodup he
  have htrans : ∀ x ∈ sP.entries, ∃ y ∈ s.entries, scrub x = scrub y := by
    intro x hx
    have h1 : scrub x ∈ sP.entries.map scrub := List.mem_map_of_mem _ hx
    rw [hPe', hA_scrub] at h1
    obtain ⟨y, hy, hyx⟩ := List.mem_map.mp h1
    exact ⟨y, hy, hyx.symm⟩
  have h6P : ∀ x ∈ sP.entries, (alookup sP.blobs x.id).isSome = true →
      strTruthy x.media.cloudUrl = true := by
    intro x hx hbl
    obtain ⟨y, hy, hxy⟩ := htrans x hx
    have hid : x.id = y.id := scrub_id_eq hxy
    have hm : x.media = y.media := scrub_media_eq hxy
    rw [hm]
    apply h6 y hy
    rw [← hid, ← hPb']
    exact hbl
  have h9P : ∀ x ∈ sP.entries, x.media.cloudUrl ≠ some "" := by
    intro x hx
    obtain ⟨y, hy, hxy⟩ := htrans x hx
    have hm : x.media = y.media := scrub_media_eq hxy
    rw [hm]
    exact h9 y hy
  have h8P : ∀ x ∈ sP.entries, ∃ d, sP.remote.find? (fun y => y.id = x.id) = some d ∧
      scrub d = scrub (cloudDoc x (pushUrl sP.blobs uid x) 0 uid) := by
    intro x hx
    obtain ⟨y, hy, hxy⟩ := htrans x hx
    have hid : x.id = y.id := scrub_id_eq hxy
    have hm : x.media = y.media := scrub_media_eq hxy
    obtain ⟨d, hdmem, hdid, hdscr⟩ := h8 y hy
    refine ⟨d, ?_, ?_⟩
    · rw [hPr']
      have h1 := mem_nodup_find? hr hdmem
      rw [hdid, ← hid] at h1
      exact h1
    · rw [hPb', pushUrl_congr s.blobs uid hid hm, scrub_cloudDoc_eq, hxy, ← scrub_cloudDoc_eq]
      exact hdscr
  have hnoneed : ∀ e ∈ sP.entries,
      ¬ ((alookup sP.blobs e.id).isSome ∧ ¬ strTruthy e.media.cloudUrl) := by
    intro e he hc
    exact hc.2 (h6P e he hc.1)
  have hBentries : (sP.entries.foldl pushStep sP).entries = sP.entries := by
    rw [pushFold_entries uid sP.entries sP hPu hPeNodup hPeNodup hPf]
    have hmapid : sP.entries.map (fun x =>
        if sP.entries.any (fun e => e.id = x.id) then pushLocalUpdate sP.blobs uid x else x) =
        sP.entries.map (fun x => x) := by
      apply List.map_congr_left
      intro x hx
      by_cases ha : sP.entries.any (fun e => e.id = x.id)
      · rw [if_pos ha]
        exact pushLocalUpdate_id sP.blobs uid x (h6P x hx) (h9P x hx)
      · rw [if_neg ha]
    rw [hmapid, List.map_id']
  have hBremote := pushFold_remote_scrub uid sP.entries sP hPu hPeNodup
    (by rw [hPr']; exact hr) h8P
  have hBrblobs := pushFold_remoteBlobs uid sP.entries sP hPu hnoneed
  rw [hpf]
  refine ⟨?_, ?_, ?_, ?_⟩
  · rw [hBe, hBentries, hPe', hA_scrub]
  · rw [hBr, hBremote.1, hPr']
  · rw [hBrb, hBrblobs, hPrb']
  · rw [hBe, hBentries, hPe', hA_id]
    exact hl

theorem performFullSync_idempotent_mod_bookkeeping_witness :
    (performFullSync (performFullSync sIdem)).entries.map scrub =
        (performFullSync sIdem).entries.map scrub ∧
    (performFullSync (performFullSync sIdem)).remote.map scrub =
        (performFullSync sIdem).remote.map scrub ∧
    (performFullSync (performFullSync sIdem)).remoteBlobs =
        (performFullSync sIdem).remoteBlobs ∧
    ((performFullSync (performFullSync sIdem)).entries.map (fun e => e.id)).Nodup :=
  performFullSync_idempotent_mod_bookkeeping (performFullSync sIdem) "u"
    (by decide) (by decide) (by decide) (by decide) (by decide) (by decide)
    (by decide) (by decide) (by decide)
